import Mathlib

/-!
Verification of the diagram-block normalization and validation engine of the
deck-generation pipeline.

The source operates on Python strings; we embed documents as `List Char`.
`splitLines` mirrors `str.split("\n")`, `joinLines` mirrors `"\n".join(...)`,
`trim` mirrors `str.strip()`, and `List.isPrefixOf` mirrors `str.startswith`.
The two regex-based block normalizers (`src/mermaid.py` and
`src/modules/mermaid.py`) are embedded as explicit left-to-right scans with
the exact matching semantics of the Python patterns
`"```mermaid\n(.*?)\n```(?:\n```)*"` and `"```mermaid\n(.*?)\n```(?:\n*```)*"`
under `re.DOTALL`: the leftmost occurrence of the literal opener is located,
the lazy group ends at the first following occurrence of `"\n```"`, and the
trailing star greedily consumes further closer repetitions.
-/

namespace Deck

/-- Whitespace test matching Python `str.strip()` on ASCII input
(space, tab, newline, carriage return, vertical tab, form feed). -/
def isWS (c : Char) : Bool :=
  c = ' ' || c = '\t' || c = '\n' || c = '\r' || c = Char.ofNat 11 || c = Char.ofNat 12

/-- Python `str.strip()`: drop whitespace from both ends. -/
def trim (l : List Char) : List Char :=
  ((l.dropWhile isWS).reverse.dropWhile isWS).reverse

/-- Python `str.split("\n")`: never empty, e.g. `splitLines [] = [[]]`. -/
def splitLines : List Char → List (List Char)
  | [] => [[]]
  | c :: cs =>
    if c = '\n' then [] :: splitLines cs
    else (c :: (splitLines cs).headD []) :: (splitLines cs).tail

/-- Python `"\n".join(...)`. -/
def joinLines : List (List Char) → List Char
  | [] => []
  | [l] => l
  | l :: ls => l ++ '\n' :: joinLines ls

/-- Index of the first occurrence of `pat` in `s` (leftmost match of a
literal pattern, as the `re` module finds it). -/
def findIdx? (pat : List Char) : List Char → Option Nat
  | [] => if pat.isEmpty then some 0 else none
  | c :: cs =>
    if pat.isPrefixOf (c :: cs) then some 0
    else (findIdx? pat cs).map (· + 1)

/-- The literal `"```"`. -/
def bt3 : List Char := ("```").data

/-- The literal `"``````"`. -/
def bt6 : List Char := ("``````").data

/-- The literal `"```mermaid"`. -/
def bm10 : List Char := ("```mermaid").data

/-- The regex opener literal `"```mermaid\n"` (11 characters). -/
def openerStr : List Char := ("```mermaid\n").data

/-- The closing-fence literal `"\n```"` (4 characters). -/
def closer4 : List Char := ("\n```").data

theorem splitLines_ne_nil (s : List Char) : splitLines s ≠ [] := by
  cases s with
  | nil => simp [splitLines]
  | cons c cs =>
    simp only [splitLines]
    split <;> simp

theorem splitLines_nl (s : List Char) : splitLines ('\n' :: s) = [] :: splitLines s := by
  simp [splitLines]

theorem splitLines_cons {c : Char} (h : c ≠ '\n') (s : List Char) :
    splitLines (c :: s) = (c :: (splitLines s).headD []) :: (splitLines s).tail := by
  simp [splitLines, h]

theorem headD_cons_tail {α : Type} {l : List α} (d : α) (h : l ≠ []) :
    l.headD d :: l.tail = l := by
  cases l with
  | nil => exact absurd rfl h
  | cons a as => rfl

theorem joinLines_cons {l : List Char} {ls : List (List Char)} (h : ls ≠ []) :
    joinLines (l :: ls) = l ++ '\n' :: joinLines ls := by
  cases ls with
  | nil => exact absurd rfl h
  | cons a as => rfl

theorem joinLines_splitLines (s : List Char) : joinLines (splitLines s) = s := by
  induction s with
  | nil => simp [splitLines, joinLines]
  | cons c cs ih =>
    by_cases h : c = '\n'
    · subst h
      rw [splitLines_nl, joinLines_cons (splitLines_ne_nil cs), ih]
      rfl
    · rw [splitLines_cons h]
      cases hs : splitLines cs with
      | nil => exact absurd hs (splitLines_ne_nil cs)
      | cons l ls =>
        rw [hs] at ih
        cases ls with
        | nil =>
          simpa [joinLines] using congrArg (c :: ·) ih
        | cons l2 ls2 =>
          rw [List.headD, List.tail, joinLines_cons (by simp)]
          simpa using congrArg (c :: ·) ih

/-- Lines produced by `splitLines` contain no newline. -/
theorem splitLines_no_nl (s : List Char) : ∀ l ∈ splitLines s, '\n' ∉ l := by
  induction s with
  | nil => intro l hl; simp [splitLines] at hl; simp [hl]
  | cons c cs ih =>
    intro l hl
    by_cases h : c = '\n'
    · subst h; rw [splitLines_nl] at hl
      rcases List.mem_cons.mp hl with h1 | h1
      · simp [h1]
      · exact ih l h1
    · rw [splitLines_cons h] at hl
      cases hs : splitLines cs with
      | nil => exact absurd hs (splitLines_ne_nil cs)
      | cons a as =>
        rw [hs] at hl
        rcases List.mem_cons.mp hl with h1 | h1
        · subst h1
          intro hmem
          rcases List.mem_cons.mp hmem with hc | hc
          · exact h hc.symm
          · exact ih a (by simp [hs]) hc
        · exact ih l (by simp [hs]; right; exact h1)

/-- `splitLines` distributes over a newline: the text before the newline is
one batch of lines, the text after is another. -/
theorem splitLines_append_nl (a z : List Char) (ha : '\n' ∉ a) :
    splitLines (a ++ '\n' :: z) = splitLines a ++ splitLines z := by
  induction a with
  | nil => simp [splitLines]
  | cons c cs ih =>
    have hc : c ≠ '\n' := fun h => ha (h ▸ List.mem_cons_self c cs)
    have hcs : '\n' ∉ cs := fun h => ha (List.mem_cons_of_mem c h)
    rw [List.cons_append, splitLines_cons hc, splitLines_cons hc, ih hcs]
    have h1 : splitLines cs ≠ [] := splitLines_ne_nil cs
    cases hs : splitLines cs with
    | nil => exact absurd hs h1
    | cons l ls => simp

/-- `splitLines` of a newline-free list is that single line. -/
theorem splitLines_no_nl_eq (a : List Char) (ha : '\n' ∉ a) :
    splitLines a = [a] := by
  induction a with
  | nil => rfl
  | cons c cs ih =>
    have hc : c ≠ '\n' := fun h => ha (h ▸ List.mem_cons_self c cs)
    have hcs : '\n' ∉ cs := fun h => ha (List.mem_cons_of_mem c h)
    rw [splitLines_cons hc, ih hcs]
    rfl

/-- Prepending a newline-free fragment merges it into the first line. -/
theorem splitLines_append_no_nl (p s : List Char) (hp : '\n' ∉ p) :
    splitLines (p ++ s) = (p ++ (splitLines s).headD []) :: (splitLines s).tail := by
  induction p with
  | nil =>
    simp only [List.nil_append]
    exact (headD_cons_tail [] (splitLines_ne_nil s)).symm
  | cons c cs ih =>
    have hc : c ≠ '\n' := fun h => hp (h ▸ List.mem_cons_self c cs)
    have hcs : '\n' ∉ cs := fun h => hp (List.mem_cons_of_mem c h)
    rw [List.cons_append, splitLines_cons hc, ih hcs]
    simp

/-- Round trip: splitting a join of newline-free lines recovers the lines. -/
theorem splitLines_joinLines (ls : List (List Char)) (hne : ls ≠ [])
    (hnl : ∀ l ∈ ls, '\n' ∉ l) : splitLines (joinLines ls) = ls := by
  induction ls with
  | nil => exact absurd rfl hne
  | cons l ls ih =>
    cases ls with
    | nil =>
      simp only [joinLines]
      exact splitLines_no_nl_eq l (hnl l (List.mem_cons_self l _))
    | cons l2 ls2 =>
      simp only [joinLines]
      rw [splitLines_append_nl l (joinLines (l2 :: ls2)) (hnl l (List.mem_cons_self l _)),
        splitLines_no_nl_eq l (hnl l (List.mem_cons_self l _)),
        ih (by simp) (fun x hx => hnl x (List.mem_cons_of_mem l hx))]
      rfl

/-!
## The `fix_mermaid_block` replacement function

Both implementations share it verbatim: strip the lazy group, drop every
line whose stripped form is `"```"`, `"``````"` or starts with `"```"`,
rejoin, and wrap in a single opener/closer pair.
-/

/-- The line filter inside `fix_mermaid_block`: `True` for lines that are
kept (the Python loop `continue`s on stray fence lines). -/
def keepInnerLine (l : List Char) : Bool :=
  !(trim l = bt3 || trim l = bt6 || bt3.isPrefixOf (trim l))

/-- `fix_mermaid_block`: the replacement applied to every regex match.
`g` is the lazy group `match.group(1)`. -/
def fixBlock (g : List Char) : List Char :=
  let cleaned := joinLines (((splitLines (trim g)).filter keepInnerLine))
  bm10 ++ '\n' :: cleaned ++ '\n' :: bt3

/-!
## The regex scan shared by both `clean_mermaid_blocks` implementations

`scan eat fuel s` decomposes `s` into alternating literal segments and
matches of the pattern, exactly as `re.sub` walks the string: the next
match starts at the leftmost occurrence of `"```mermaid\n"`, its lazy group
ends at the first following `"\n```"`, and `eat` consumes the trailing
closer repetitions (`(?:\n```)*` for `src/mermaid.py`, `(?:\n*```)*` for
`src/modules/mermaid.py`). The fuel argument only bounds the recursion;
every genuine match consumes at least 15 characters, so fuel `s.length + 1`
is never exhausted.
-/

/-- A segment of the `re.sub` decomposition: literal text copied verbatim,
or a match (recording the consumed text and the lazy group). -/
inductive Seg where
  | copy (t : List Char)
  | blk (m : List Char) (g : List Char)
deriving DecidableEq, Repr

/-- The text the segment came from. -/
def Seg.orig : Seg → List Char
  | .copy t => t
  | .blk m _ => m

/-- The text the segment contributes to the output of `re.sub`. -/
def Seg.out : Seg → List Char
  | .copy t => t
  | .blk _ g => fixBlock g

/-- Greedy trailing consumption for `(?:\n```)*`: repetitions of the
4-character literal `"\n```"`. -/
def eatAF : Nat → List Char → Nat
  | 0, _ => 0
  | fuel + 1, s =>
    if closer4.isPrefixOf s then 4 + eatAF fuel (s.drop 4) else 0

/-- Greedy trailing consumption for `(?:\n*```)*`: each repetition consumes
all leading newlines provided `"```"` follows them directly. -/
def eatBF : Nat → List Char → Nat
  | 0, _ => 0
  | fuel + 1, s =>
    let j := (s.takeWhile (· = '\n')).length
    if bt3.isPrefixOf (s.drop j) then (j + 3) + eatBF fuel (s.drop (j + 3)) else 0

/-- Trailing-closer consumption of the `src/mermaid.py` pattern. -/
def eatA (s : List Char) : Nat := eatAF s.length s

/-- Trailing-closer consumption of the `src/modules/mermaid.py` pattern. -/
def eatB (s : List Char) : Nat := eatBF s.length s

/-- Left-to-right match decomposition of `re.sub` for the mermaid pattern,
parameterized by the trailing-closer eater. -/
def scan (eat : List Char → Nat) : Nat → List Char → List Seg
  | 0, s => [.copy s]
  | fuel + 1, s =>
    match findIdx? openerStr s with
    | none => [.copy s]
    | some q =>
      let rest := s.drop (q + 11)
      match findIdx? closer4 rest with
      | none => [.copy s]
      | some r =>
        let g := rest.take r
        let after := rest.drop (r + 4)
        let k := eat after
        let rem := after.drop k
        .copy (s.take q) :: .blk ((s.take (q + 11 + r + 4 + k)).drop q) g ::
          scan eat fuel rem

/-- Output of `re.sub`: every match replaced by `fix_mermaid_block`. -/
def render (segs : List Seg) : List Char := (segs.map Seg.out).flatten

/-- The segments of the `src/mermaid.py` regex pass. -/
def scanA (s : List Char) : List Seg := scan eatA (s.length + 1) s

/-- The segments of the `src/modules/mermaid.py` regex pass. -/
def scanB (s : List Char) : List Seg := scan eatB (s.length + 1) s

/-- The `re.sub` call of `src/mermaid.py` (`(?:\n```)*` tail). -/
def subA (s : List Char) : List Char := render (scanA s)

/-- The `re.sub` call of `src/modules/mermaid.py` (`(?:\n*```)*` tail). -/
def subB (s : List Char) : List Char := render (scanB s)

/-!
## Orphan-marker deletion (the second phase of `src/mermaid.py` only)

After the substitution, `src/mermaid.py` walks the lines and deletes every
line whose stripped form is exactly `"```"` unless some line among the
previous `min i 9` lines (indices `i-1` down to `max 0 (i-9)`, from
`range(i - 1, max(-1, i - 10), -1)`) starts, after stripping, with
`"```"`. `src/modules/mermaid.py` has no such phase.
-/

/-- `prev_code_block` of the Python look-back loop: some line in the window
`[max 0 (i-9), i-1]` of the original line list starts with the marker. -/
def prevFence (all : List (List Char)) (i : Nat) : Bool :=
  (List.range' (i - 9) (min i 9)).any fun j => bt3.isPrefixOf (trim (all.getD j []))

/-- Whether the line at index `i` is kept by the orphan-deletion loop. -/
def keepLine (all : List (List Char)) (i : Nat) (l : List Char) : Bool :=
  !(trim l = bt3 && !prevFence all i)

/-- The orphan-deletion loop: the look-back always reads the original list
`all`, while iteration proceeds through `ls` at absolute index `i`. -/
def cleanupAux (all : List (List Char)) : Nat → List (List Char) → List (List Char)
  | _, [] => []
  | i, l :: ls =>
    if keepLine all i l then l :: cleanupAux all (i + 1) ls
    else cleanupAux all (i + 1) ls

/-- Orphan-marker deletion over a full line list. -/
def cleanupLines (ls : List (List Char)) : List (List Char) := cleanupAux ls 0 ls

/-- `MermaidProcessor.clean_mermaid_blocks` of `src/mermaid.py`:
regex substitution followed by orphan-marker deletion. -/
def cleanA (s : List Char) : List Char :=
  joinLines (cleanupLines (splitLines (subA s)))

/-- `MermaidProcessor.clean_mermaid_blocks` of `src/modules/mermaid.py`:
regex substitution only. -/
def cleanB (s : List Char) : List Char := subB s

/-!
## `MermaidProcessor.validate_notes_closure` (`src/modules/mermaid.py`)

A single pass over the lines with 1-based line numbers, a `notes_open`
flag and a `slide_number` counter; errors are the exact f-strings of the
source.
-/

/-- Decimal digits of a number, for embedding the Python f-strings. -/
def natChars (n : Nat) : List Char := Nat.toDigits 10 n

/-- The slide-separator literal `"---"`. -/
def sep3 : List Char := ("---").data

/-- The notes-open directive literal `"::: notes"`. -/
def notesOpenTok : List Char := ("::: notes").data

/-- The notes-close directive literal `":::"`. -/
def colon3 : List Char := (":::").data

/-- `f"Slide {slide_number}: Notes section not closed before slide separator at line {i}"` -/
def msgSep (slide i : Nat) : List Char :=
  ("Slide ").data ++ natChars slide ++
    (": Notes section not closed before slide separator at line ").data ++ natChars i

/-- `f"Slide {slide_number}: Notes section already open at line {i}"` -/
def msgAlready (slide i : Nat) : List Char :=
  ("Slide ").data ++ natChars slide ++
    (": Notes section already open at line ").data ++ natChars i

/-- `f"Slide {slide_number}: Closing ::: without opening notes section at line {i}"` -/
def msgClose (slide i : Nat) : List Char :=
  ("Slide ").data ++ natChars slide ++
    (": Closing ::: without opening notes section at line ").data ++ natChars i

/-- `f"Slide {slide_number}: Notes section not closed at end of document"` -/
def msgEof (slide : Nat) : List Char :=
  ("Slide ").data ++ natChars slide ++
    (": Notes section not closed at end of document").data

/-- The `for i, line in enumerate(lines, 1)` loop of `validate_notes_closure`:
returns the collected errors together with the final `notes_open` flag and
`slide_number`. -/
def notesLoop : List (List Char) → Nat → Bool → Nat → List (List Char) × Bool × Nat
  | [], _, notesOpen, slide => ([], notesOpen, slide)
  | l :: ls, i, notesOpen, slide =>
    let stripped := trim l
    if stripped = sep3 then
      let r := notesLoop ls (i + 1) false (slide + 1)
      ((if notesOpen then [msgSep slide i] else []) ++ r.1, r.2)
    else if notesOpenTok.isPrefixOf stripped then
      let r := notesLoop ls (i + 1) true slide
      ((if notesOpen then [msgAlready slide i] else []) ++ r.1, r.2)
    else if stripped = colon3 then
      if notesOpen then notesLoop ls (i + 1) false slide
      else
        let r := notesLoop ls (i + 1) notesOpen slide
        (msgClose slide i :: r.1, r.2)
    else notesLoop ls (i + 1) notesOpen slide

/-- `MermaidProcessor.validate_notes_closure`: returns
`(len(errors) == 0, errors)` after the loop and the end-of-document check. -/
def validate_notes_closure (content : List Char) : Bool × List (List Char) :=
  let r := notesLoop (splitLines content) 1 false 1
  let errs := r.1 ++ (if r.2.1 then [msgEof r.2.2] else [])
  (errs.isEmpty, errs)

example : validate_notes_closure (("::: notes\nhi\n:::").data) = (true, []) := by decide
example : validate_notes_closure (("::: notes\nx").data)
    = (false, [("Slide 1: Notes section not closed at end of document").data]) := by decide
example : validate_notes_closure (("a\n::: notes\n---\nx").data)
    = (false, [("Slide 1: Notes section not closed before slide separator at line 3").data]) := by
  decide
example : validate_notes_closure ((":::").data)
    = (false, [("Slide 1: Closing ::: without opening notes section at line 1").data]) := by decide
example : validate_notes_closure (("----\n--- x\n:::: notes").data) = (true, []) := by decide

/-- `few_shot_examples` of `src/modules/mermaid.py`. -/
def fewShotM : List Char :=
  ("\n- Sequence diagram:\n\n```mermaid\nsequenceDiagram\n    Alice->>John: Hello John, how are you?\n    John-->>Alice: Great!\n    Alice-)John: See you later!\n```\n\n- Flow chart:\n\n```mermaid\nflowchart LR\n    markdown[\"`This ** is ** _Markdown_`\"]\n    newLines[\"`Line1\n    Line 2\n    Line 3`\"]\n    markdown --> newLines\n```\n\nor\n\n```mermaid\nflowchart LR\n    Logger[\"LogManager\"] --> TaskA[\"logger.get_logger(\x27data_preprocessing\x27)\"]\n    Logger --> TaskB[\"logger.get_logger(\x27model_training\x27)\"]\n    TaskA -->|writes| FileA[\"preprocess.log\"]\n    TaskB -->|writes| FileB[\"training.log\"]\n```\n\nPossible FlowChart orientations are:\nTB: Top to bottom\nTD: Top-down/ same as top to bottom\nBT: Bottom to top\nRL: Right to left\nLR: Left to right\n\n- Class diagram:\n\n```mermaid\nclassDiagram\n    note \"From Duck till Zebra\"\n    Animal <|-- Duck\n    note for Duck \"can fly\\\\ncan swim\\\\ncan dive\\\\ncan help in debugging\"\n    Animal <|-- Fish\n    Animal <|-- Zebra\n    Animal : +int age\n    Animal : +String gender\n    Animal: +isMammal()\n    Animal: +mate()\n    class Duck\x7b\n        +String beakColor\n        +swim()\n        +quack()\n    \x7d\n    class Fish\x7b\n        -int sizeInFeet\n        -canEat()\n    \x7d\n    class Zebra\x7b\n        +bool is_wild\n        +run()\n    \x7d\n```\n\n- Pie chart:\n\n```mermaid\npie showData\n    title Key elements in Product X\n    \"Calcium\" : 42.96\n    \"Potassium\" : 50.05\n    \"Magnesium\" : 10.01\n    \"Iron\" : 5\n```\n\n- Quadrant chart:\n\n```mermaid\nquadrantChart\n    title Reach and engagement of campaigns\n    x-axis Low Reach --> High Reach\n    y-axis Low Engagement --> High Engagement\n    quadrant-1 We should expand\n    quadrant-2 Need to promote\n    quadrant-3 Re-evaluate\n    quadrant-4 May be improved\n    Campaign A: [0.3, 0.6]\n    Campaign B: [0.45, 0.23]\n    Campaign C: [0.57, 0.69]\n    Campaign D: [0.78, 0.34]\n    Campaign E: [0.40, 0.34]\n    Campaign F: [0.35, 0.78]\n```\n\n- Timeline:\n\n```mermaid\ntimeline\n    title History of Social Media Platform\n    2002 : LinkedIn\n    2004 : Facebook\n        : Google\n    2005 : YouTube\n    2006 : Twitter\n```\n\n- Radar chart:\n\n```mermaid\nradar-beta\n    axis m[\"Math\"], s[\"Science\"], e[\"English\"]\n    axis h[\"History\"], g[\"Geography\"], a[\"Art\"]\n    curve a[\"Alice\"]\x7b85, 90, 80, 70, 75, 90\x7d\n    curve b[\"Bob\"]\x7b70, 75, 85, 80, 90, 85\x7d\n    max 100\n    min 0\n```\n\n- Gantt chart:\n\n```mermaid\ngantt\n    dateFormat  YYYY-MM-DD\n    title       Adding GANTT diagram functionality to mermaid\n    excludes    weekends\n    %% (`excludes` accepts specific dates in YYYY-MM-DD format, days of the week (\"sunday\") or \"weekends\", but not the word \"weekdays\".)\n\n    section A section\n    Completed task            :done,    des1, 2014-01-06,2014-01-08\n    Active task               :active,  des2, 2014-01-09, 3d\n    Future task               :         des3, after des2, 5d\n    Future task2              :         des4, after des3, 5d\n\n    section Critical tasks\n    Completed task in the critical line :crit, done, 2014-01-06,24h\n    Implement parser and jison          :crit, done, after des1, 2d\n    Create tests for parser             :crit, active, 3d\n    Future task in critical line        :crit, 5d\n    Create tests for renderer           :2d\n    Add to mermaid                      :until isadded\n    Functionality added                 :milestone, isadded, 2014-01-25, 0d\n```\n\n").data

/-- Text of `generation_system_prompt` before the few-shot examples (`src/modules/mermaid.py`). -/
def genSysPreM : List Char :=
  ("\nYou are a specialized agent that enhances Markdown documents by inserting syntactically correct Mermaid diagrams.\n\n**Core Responsibilities:**\n- Insert Mermaid diagrams ONLY in appropriate locations within speaker notes sections\n- Do NOT modify any existing Markdown content\n- Ensure all Mermaid syntax is valid and renderable\n- Limit to one diagram per slide unless explicitly needed\n- Skip diagram insertion if content is already clear without visual aid\n- Convert any timeline or gantt chart table into proper Mermaid Gantt Chart syntax\n\n**Mermaid Code Block Rules:**\n- Opening: ```mermaid (exactly three backticks + \"mermaid\")\n- Closing: ``` (exactly three backticks only)\n- NO nested or duplicate backticks within diagram content\n- Newlines before and after the entire code block\n\n**Syntax Requirements:**\n- Use --> for arrows (NOT -- > or other variations)\n- Node IDs: alphanumeric only, no spaces\n- Labels: Use A[\"Label\"] or A[Label] format consistently\n- Quotes: Avoid double quotes in labels when possible\n- Flowcharts: Must start with \"flowchart\" + orientation (LR, TD, etc.)\n- Class diagrams: Use proper --> syntax for relationships\n\n**Diagram Selection Guidelines:**\nChoose appropriate diagram types based on content:\n- Process flows: Flowchart\n- System interactions: Sequence diagram\n- Data structures: Class diagram\n- Comparisons: Quadrant chart\n- Timeline data: Timeline diagram\n- Project schedules: Gantt chart\n- Statistics: Pie chart\n\n**Quality Standards:**\n- All diagrams must be syntactically correct\n- Nodes and relationships must be clearly defined\n- Diagram type must match the content being illustrated\n- Keep diagrams simple and focused\n\n**Few-shot examples:**\n").data

/-- Text of `generation_system_prompt` after the few-shot examples (`src/modules/mermaid.py`). -/
def genSysPostM : List Char :=
  ("\n").data

/-- Text of `_get_generation_user_prompt` before `slide_content` (`src/modules/mermaid.py`). -/
def genUserPreM : List Char :=
  ("\nAnalyze this Markdown document and insert Mermaid diagrams ONLY where they provide significant visual value.\n\nCritical Rules:\n- Only add diagrams if they enhance understanding beyond the text, or would benefit from a visual aid\ne.g., visualizing a process, structure, timeline, comparison, statistics, summary, etc.\n- Skip if content is already clear and well-structured\n- Insert diagrams within speaker notes sections only\n- One diagram per slide maximum, unless multiple are clearly needed\n- Ensure syntactically correct Mermaid code\n- Do not modify existing content\n\nMarkdown content:\n").data

/-- Text of `_get_generation_user_prompt` after `slide_content` (`src/modules/mermaid.py`). -/
def genUserPostM : List Char :=
  ("\n").data

/-- `validation_system_prompt` of `src/modules/mermaid.py`. -/
def valSysM : List Char :=
  ("\nYou are a specialized agent responsible for validating and correcting Mermaid diagrams embedded in Markdown documents.\nYour responsibilities are:\n\n1. **Scope of Modification**\n- Do **not** modify any non-Mermaid content in the Markdown.\n- Only process Mermaid code blocks that contain syntax errors or invalid structures.\n- Do **not** insert new diagrams, only fix existing ones.\n\n2. **Code Block Structure Validation**\n- Ensure each Mermaid diagram is properly enclosed: ```mermaid at start, ``` at end\n- Verify there are no duplicate or nested backticks within the diagram content\n- Ensure proper newlines before and after code blocks\n\n3. **Node Labeling Syntax (CRITICAL)**\n- Node labels with special characters, spaces, parentheses, or HTML tags MUST be quoted\n- Use double quotes for labels: NodeID[\"Label with spaces/special chars\"]\n- Examples of REQUIRED quoting:\n  * Start[\"signal received<br/>(sigint / sigterm)\"] ✓\n  * Start[signal received<br/>(sigint / sigterm)] ✗ (INVALID)\n  * Cleanup[\"_cleanup()\"] ✓\n  * Cleanup[_cleanup()] ✗ (INVALID if contains special chars)\n- Simple alphanumeric labels can be unquoted: NodeID[SimpleLabel] or NodeID[\"SimpleLabel\"]\n\n4. **Syntax Validation & Common Fixes**\n- Fix invalid Mermaid syntax according to official Mermaid documentation\n- Replace invalid arrow syntax: Use --> instead of -- >\n- Fix node labeling: Ensure all labels with special characters are properly quoted\n- Correct relationship syntax in class diagrams: Use --> instead of -- >\n- Fix flowchart syntax: Ensure proper node definitions and connections\n- Validate diagram types and their specific syntax requirements\n\n5. **Specific Error Patterns to Fix**\n- Invalid arrows: `-- >` → `-->`\n- Unquoted labels with special characters: `Node[label(with)special]` → `Node[\"label(with)special\"]`\n- Unquoted labels with spaces: `Node[my label]` → `Node[\"my label\"]`\n- Unquoted labels with HTML: `Node[text<br/>more]` → `Node[\"text<br/>more\"]`\n- Invalid class diagram relationships: Fix inheritance and association syntax\n- Flowchart orientation errors: Ensure valid orientations (TB, TD, BT, RL, LR)\n- Timeline syntax errors: Fix section and event formatting\n\n6. **Validation Rules**\n- Flowcharts must start with `flowchart` or `graph` followed by orientation\n- Class diagrams must start with `classDiagram`\n- Sequence diagrams must start with `sequenceDiagram`\n- All node IDs must be valid (alphanumeric, no spaces)\n- Any label containing spaces, parentheses, brackets, HTML tags, or special characters MUST be quoted\n\n7. **Output Requirement**\n- You must always return the entire markdown document, including both modified and unmodified content, even if no changes are made.\n- Never summarize, omit, or skip any sections. Do not reply with explanations or comments—only output the full markdown document.\n").data

/-- Text of `_get_validation_user_prompt` before `content` (`src/modules/mermaid.py`). -/
def valUserPreM : List Char :=
  ("\nPlease validate and fix the Mermaid diagrams in the following Markdown document.\n\nFocus on these common issues:\n1. Duplicate or malformed ``` lines\n2. Invalid arrow syntax (-- > should be -->)\n3. **CRITICAL: Unquoted node labels with special characters**\n   - Labels with spaces, parentheses, HTML tags, or special chars MUST be quoted\n   - Fix: Start[signal received<br/>(sigint)] → Start[\"signal received<br/>(sigint)\"]\n   - Fix: Cleanup[_cleanup()] → Cleanup[\"_cleanup()\"]\n4. Incorrect node labeling or relationships\n5. Invalid diagram type declarations\n6. Syntax errors that prevent rendering\n\n- Only fix Mermaid code blocks with errors.\n- Do not modify any non-Mermaid content.\n- Return the entire markdown document, even if no changes are needed.\n\nMarkdown document to validate:\n").data

/-- Text of `_get_validation_user_prompt` after `content` (`src/modules/mermaid.py`). -/
def valUserPostM : List Char :=
  ("\n").data

/-- `few_shot_examples` of `src/mermaid.py`. -/
def fewShotO : List Char :=
  ("\n- Sequence diagram:\n\n```mermaid\nsequenceDiagram\n    Alice->>John: Hello John, how are you?\n    John-->>Alice: Great!\n    Alice-)John: See you later!\n```\n\n- Flow chart:\n\n```mermaid\nflowchart LR\n    markdown[\"`This ** is ** _Markdown_`\"]\n    newLines[\"`Line1\n    Line 2\n    Line 3`\"]\n    markdown --> newLines\n```\n\nor\n\n```mermaid\nflowchart LR\n    Logger[\"LogManager\"] --> TaskA[\"logger.get_logger(\x27data_preprocessing\x27)\"]\n    Logger --> TaskB[\"logger.get_logger(\x27model_training\x27)\"]\n    TaskA -->|writes| FileA[\"preprocess.log\"]\n    TaskB -->|writes| FileB[\"training.log\"]\n```\n\nPossible FlowChart orientations are:\nTB: Top to bottom\nTD: Top-down/ same as top to bottom\nBT: Bottom to top\nRL: Right to left\nLR: Left to right\n\n- Class diagram:\n\n```mermaid\nclassDiagram\n    note \"From Duck till Zebra\"\n    Animal <|-- Duck\n    note for Duck \"can fly\\\\ncan swim\\\\ncan dive\\\\ncan help in debugging\"\n    Animal <|-- Fish\n    Animal <|-- Zebra\n    Animal : +int age\n    Animal : +String gender\n    Animal: +isMammal()\n    Animal: +mate()\n    class Duck\x7b\n        +String beakColor\n        +swim()\n        +quack()\n    \x7d\n    class Fish\x7b\n        -int sizeInFeet\n        -canEat()\n    \x7d\n    class Zebra\x7b\n        +bool is_wild\n        +run()\n    \x7d\n```\n\n- Pie chart:\n\n```mermaid\npie showData\n    title Key elements in Product X\n    \"Calcium\" : 42.96\n    \"Potassium\" : 50.05\n    \"Magnesium\" : 10.01\n    \"Iron\" : 5\n```\n\n- Quadrant chart:\n\n```mermaid\nquadrantChart\n    title Reach and engagement of campaigns\n    x-axis Low Reach --> High Reach\n    y-axis Low Engagement --> High Engagement\n    quadrant-1 We should expand\n    quadrant-2 Need to promote\n    quadrant-3 Re-evaluate\n    quadrant-4 May be improved\n    Campaign A: [0.3, 0.6]\n    Campaign B: [0.45, 0.23]\n    Campaign C: [0.57, 0.69]\n    Campaign D: [0.78, 0.34]\n    Campaign E: [0.40, 0.34]\n    Campaign F: [0.35, 0.78]\n```\n\n- Timeline:\n\n```mermaid\ntimeline\n    title History of Social Media Platform\n    2002 : LinkedIn\n    2004 : Facebook\n        : Google\n    2005 : YouTube\n    2006 : Twitter\n```\n\n- Radar chart:\n\n```mermaid\nradar-beta\n    axis m[\"Math\"], s[\"Science\"], e[\"English\"]\n    axis h[\"History\"], g[\"Geography\"], a[\"Art\"]\n    curve a[\"Alice\"]\x7b85, 90, 80, 70, 75, 90\x7d\n    curve b[\"Bob\"]\x7b70, 75, 85, 80, 90, 85\x7d\n    max 100\n    min 0\n```\n").data

/-- Text of `_get_generation_system_prompt` before the few-shot examples (`src/mermaid.py`). -/
def genSysPreO : List Char :=
  ("\nYou are a specialized agent that enhances Markdown documents by inserting syntactically correct Mermaid diagrams.\n\n**Core Responsibilities:**\n- Insert Mermaid diagrams ONLY in appropriate locations within speaker notes sections\n- Do NOT modify any existing Markdown content\n- Ensure all Mermaid syntax is valid and renderable\n- Limit to one diagram per slide unless explicitly needed\n\n**Mermaid Code Block Rules:**\n- Opening: ```mermaid (exactly three backticks + \"mermaid\")\n- Closing: ``` (exactly three backticks only)\n- NO nested or duplicate backticks within diagram content\n- Newlines before and after the entire code block\n\n**Syntax Requirements:**\n- Use --> for arrows (NOT -- > or other variations)\n- Node IDs: alphanumeric only, no spaces\n- Labels: Use A[\"Label\"] or A[Label] format consistently\n- Quotes: Avoid double quotes in labels when possible\n- Flowcharts: Must start with \"flowchart\" + orientation (LR, TD, etc.)\n- Class diagrams: Use proper --> syntax for relationships\n\n**Diagram Selection Guidelines:**\nChoose appropriate diagram types based on content:\n- Process flows → Flowchart\n- System interactions → Sequence diagram\n- Data structures → Class diagram\n- Comparisons → Quadrant chart\n- Timeline data → Timeline diagram\n- Statistics → Pie chart\n\n**Quality Standards:**\n- All diagrams must be syntactically correct\n- Nodes and relationships must be clearly defined\n- Diagram type must match the content being illustrated\n- Keep diagrams simple and focused\n\n").data

/-- Text of `_get_generation_system_prompt` after the few-shot examples (`src/mermaid.py`). -/
def genSysPostO : List Char :=
  ("\n").data

/-- Text of `_get_generation_user_prompt` before `slide_content` (`src/mermaid.py`). -/
def genUserPreO : List Char :=
  ("\nEnhance this Markdown document by inserting relevant Mermaid diagrams where they add value.\n\nRules:\n- Insert diagrams within speaker notes sections only\n- One diagram per slide maximum, unless multiple are clearly needed\n- Ensure syntactically correct Mermaid code\n- Do not modify existing content\n\nMarkdown content:\n").data

/-- Text of `_get_generation_user_prompt` after `slide_content` (`src/mermaid.py`). -/
def genUserPostO : List Char :=
  ("\n").data

/-- `_get_validation_system_prompt` of `src/mermaid.py`. -/
def valSysO : List Char :=
  ("\nYou are a specialized agent responsible for validating and correcting Mermaid diagrams embedded in Markdown documents.\nYour responsibilities are:\n\n1. **Scope of Modification**\n- Do **not** modify any non-Mermaid content in the Markdown.\n- Only process Mermaid code blocks that contain syntax errors or invalid structures.\n- Do **not** insert new diagrams, only fix existing ones.\n\n2. **Code Block Structure Validation**\n- Ensure each Mermaid diagram is properly enclosed: ```mermaid at start, ``` at end\n- Verify there are no duplicate or nested backticks within the diagram content\n- Ensure proper newlines before and after code blocks\n\n3. **Syntax Validation & Common Fixes**\n- Fix invalid Mermaid syntax according to official Mermaid documentation\n- Replace invalid arrow syntax: Use --> instead of -- >\n- Fix node labeling: Use proper syntax for labels (A[\"Label\"] or A[Label])\n- Correct relationship syntax in class diagrams: Use --> instead of -- >\n- Fix flowchart syntax: Ensure proper node definitions and connections\n- Validate diagram types and their specific syntax requirements\n\n4. **Specific Error Patterns to Fix**\n- Invalid arrows: `-- >` → `-->`\n- Malformed node labels with quotes: Escape or remove problematic quotes\n- Invalid class diagram relationships: Fix inheritance and association syntax\n- Flowchart orientation errors: Ensure valid orientations (TB, TD, BT, RL, LR)\n- Timeline syntax errors: Fix section and event formatting\n\n5. **Validation Rules**\n- Flowcharts must start with `flowchart` or `graph` followed by orientation\n- Class diagrams must start with `classDiagram`\n- Sequence diagrams must start with `sequenceDiagram`\n- All node IDs must be valid (alphanumeric, no spaces)\n- String literals should use consistent quoting (prefer no quotes when possible)\n").data

/-- Text of `_get_validation_user_prompt` before `content` (`src/mermaid.py`). -/
def valUserPreO : List Char :=
  ("\nPlease validate and fix the Mermaid diagrams in the following Markdown document.\n\nFocus on these common issues:\n1. Duplicate or malformed ``` lines\n2. Invalid arrow syntax (-- > should be -->)\n3. Incorrect node labeling or relationships\n4. Invalid diagram type declarations\n5. Syntax errors that prevent rendering\n\nApply fixes only where necessary to ensure diagrams are syntactically correct and renderable.\nDo not modify any non-Mermaid content.\n\nMarkdown document to validate:\n").data

/-- Text of `_get_validation_user_prompt` after `content` (`src/mermaid.py`). -/
def valUserPostO : List Char :=
  ("\n").data

/-- `output_format` of `SlideStructureGenerator` (`src/structure.py`). -/
def structureOutputFormat : List Char :=
  ("Return only the JSON object with the following sample structure:\n\x7b\n  \"title\": \"Title of the presentation\",\n  \"slides\": [\n    \x7b\n      \"heading\": \"Slide title\",\n      \"key_message\": \"Key message of the slide\"\n    \x7d,\n    ...\n  ]\n\x7d\n").data

/-- Text of `_get_system_prompt` before `output_format` (`src/structure.py`). -/
def structureSysPre : List Char :=
  ("\nYou are an expert presentation designer creating logical slide outlines.\n\nTask: Generate a coherent slide structure (titles only, no content) based on the user prompt and reference document.\n\nRequirements:\n- Always include Introduction and Summary slides\n- Extract key sections from the markdown content\n- Ensure logical flow and alignment with user prompt\n- Output only slide titles in JSON format\n\nOutput format:\n").data

/-- Text of `_get_system_prompt` after `output_format` (`src/structure.py`). -/
def structureSysPost : List Char :=
  ("\n").data

/-- Text of `_get_user_prompt` before `user_prompt` (`src/structure.py`). -/
def structureUser1 : List Char :=
  ("\n").data

/-- Text of `_get_user_prompt` between `user_prompt` and `markdown_content` (`src/structure.py`). -/
def structureUser2 : List Char :=
  (".\n\nReference markdown content:\n```markdown\n").data

/-- Text of `_get_user_prompt` between `markdown_content` and `num_slides` (`src/structure.py`). -/
def structureUser3 : List Char :=
  ("\n```\n\nOnly generate ").data

/-- Text of `_get_user_prompt` after `num_slides` (`src/structure.py`). -/
def structureUser4 : List Char :=
  (" slides.\nPlease generate the slide outline in the JSON format described above.\n").data

/-!
## External-call orchestration

The external text-generation service is an oracle
`client : system -> user -> (text, total_tokens)`; `LLMUtils.get_response`
(and the private `_get_response` helpers) forward to it. Only
`usage.total_tokens` is ever read by the orchestrators, so a usage record
is embedded as its total-token count. Where call counting matters
(`generate_structure`), the embedding additionally returns the list of
`(system, user)` pairs sent to the service.
-/

/-- `LLMUtils.get_response` / `_get_response`: one round trip to the
external text-generation service. -/
def getResponse (client : List Char → List Char → List Char × Nat)
    (systemPrompt userPrompt : List Char) : List Char × Nat :=
  client systemPrompt userPrompt

/-- `generation_system_prompt` of `src/modules/mermaid.py`
(header, few-shot examples, trailing newline). -/
def generationSystemPromptM : List Char := genSysPreM ++ fewShotM ++ genSysPostM

/-- `_get_generation_user_prompt` of `src/modules/mermaid.py`. -/
def generationUserPromptM (slide : List Char) : List Char :=
  genUserPreM ++ slide ++ genUserPostM

/-- `_get_validation_user_prompt` of `src/modules/mermaid.py`. -/
def validationUserPromptM (content : List Char) : List Char :=
  valUserPreM ++ content ++ valUserPostM

/-- `MermaidProcessor.generate_mermaid_diagrams` of `src/modules/mermaid.py`. -/
def generateMermaidM (client : List Char → List Char → List Char × Nat)
    (slide : List Char) : List Char × Nat :=
  getResponse client generationSystemPromptM (generationUserPromptM slide)

/-- `MermaidProcessor.validate_and_fix_diagrams` of `src/modules/mermaid.py`.
The source first calls the service, then runs `clean_mermaid_blocks`, then
rebinds `cleaned_content = self.validate_notes_closure(cleaned_content)` —
so the content component it returns is the `(is_valid, errors)` pair
produced by `validate_notes_closure`, not a document. -/
def validateAndFixM (client : List Char → List Char → List Char × Nat)
    (content : List Char) : (Bool × List (List Char)) × Nat :=
  let v := getResponse client valSysM (validationUserPromptM content)
  let cleaned := cleanB v.1
  let cleaned2 := validate_notes_closure cleaned
  (cleaned2, v.2)

/-- `MermaidProcessor.process_mermaid_diagrams` of `src/modules/mermaid.py`:
returns `(enhanced_content, final_content, total_usage)` where
`total_usage` is the `(generation, validation, total_tokens)` record with
`total_tokens` the sum of the two calls. -/
def processMermaidM (client : List Char → List Char → List Char × Nat)
    (slide : List Char) : List Char × (Bool × List (List Char)) × (Nat × Nat × Nat) :=
  let g := generateMermaidM client slide
  let f := validateAndFixM client g.1
  (g.1, f.1, (g.2, f.2, g.2 + f.2))

/-- `_get_generation_system_prompt` of `src/mermaid.py`. -/
def generationSystemPromptO : List Char := genSysPreO ++ fewShotO ++ genSysPostO

/-- `_get_generation_user_prompt` of `src/mermaid.py`. -/
def generationUserPromptO (slide : List Char) : List Char :=
  genUserPreO ++ slide ++ genUserPostO

/-- `_get_validation_user_prompt` of `src/mermaid.py`. -/
def validationUserPromptO (content : List Char) : List Char :=
  valUserPreO ++ content ++ valUserPostO

/-- `MermaidProcessor.generate_mermaid_diagrams` of `src/mermaid.py`. -/
def generateMermaidO (client : List Char → List Char → List Char × Nat)
    (slide : List Char) : List Char × Nat :=
  getResponse client generationSystemPromptO (generationUserPromptO slide)

/-- `MermaidProcessor.validate_and_fix_diagrams` of `src/mermaid.py`:
`clean_mermaid_blocks` first, then the service call; the service text is
returned as-is. -/
def validateAndFixO (client : List Char → List Char → List Char × Nat)
    (content : List Char) : List Char × Nat :=
  let cleaned := cleanA content
  getResponse client valSysO (validationUserPromptO cleaned)

/-- `MermaidProcessor.process_mermaid_diagrams` of `src/mermaid.py`:
returns only `(final_content, total_usage)` — the enhanced content of
step 1 is not part of the return value. -/
def processMermaidO (client : List Char → List Char → List Char × Nat)
    (slide : List Char) : List Char × (Nat × Nat × Nat) :=
  let g := generateMermaidO client slide
  let f := validateAndFixO client g.1
  (f.1, (g.2, f.2, g.2 + f.2))

/-- `_get_system_prompt` of `SlideStructureGenerator` (`src/structure.py`). -/
def structureSystemPrompt : List Char :=
  structureSysPre ++ structureOutputFormat ++ structureSysPost

/-- `_get_user_prompt` of `SlideStructureGenerator` (`src/structure.py`). -/
def structureUserPrompt (user_prompt markdown_content : List Char)
    (num_slides : Nat) : List Char :=
  structureUser1 ++ user_prompt ++ structureUser2 ++ markdown_content ++
    structureUser3 ++ natChars num_slides ++ structureUser4

/-- `SlideStructureGenerator.generate_structure` (`src/structure.py`).
`fread` embeds `FileIO.fread`. If no `markdown_path` is given the reference
content silently defaults to the empty string, and the service is then
called unconditionally; the second component records the `(system, user)`
calls made to the service. -/
def generate_structure (fread : List Char → List Char)
    (client : List Char → List Char → List Char × Nat)
    (user_prompt : List Char) (markdown_path : Option (List Char))
    (num_slides : Nat) : (List Char × Nat) × List (List Char × List Char) :=
  let markdown_content := match markdown_path with
    | some p => fread p
    | none => []
  let sys := structureSystemPrompt
  let upf := structureUserPrompt user_prompt markdown_content num_slides
  (getResponse client sys upf, [(sys, upf)])

example : cleanA (("a\n```\nb\n```").data) = ("a\nb\n```").data := by decide
example : cleanA (("a\nb\n```").data) = ("a\nb").data := by decide
example : cleanB (("```mermaid\n```\n\na\n```").data) = ("```mermaid\n\na\n```").data := by decide
example : cleanB (("```mermaid\n\na\n```").data) = ("```mermaid\na\n```").data := by decide
example : cleanB (("x\n```\ny").data) = ("x\n```\ny").data := by decide
example : cleanA (("```mermaid\nA\n```\n```\n```").data) = ("```mermaid\nA\n```").data := by decide
example : cleanB (("```mermaid\nA\n```\n```\n```").data) = ("```mermaid\nA\n```").data := by decide
example : cleanB (("```mermaid\nA\n```\n\n```mermaid\nB\n```").data)
    = ("```mermaid\nA\n```mermaid\nB\n```").data := by decide

/-!
## Occurrence lemmas for `findIdx?`
-/

theorem isPrefixOf_nil_iff (pat : List Char) :
    pat.isPrefixOf ([] : List Char) = pat.isEmpty := by
  cases pat <;> simp [List.isPrefixOf]

theorem isPrefixOf_self_append (p t : List Char) : p.isPrefixOf (p ++ t) = true := by
  induction p with
  | nil => simp [List.isPrefixOf]
  | cons c cs ih => simp [List.isPrefixOf, ih]

theorem isPrefixOf_of_append {x y s : List Char} (h : (x ++ y).isPrefixOf s = true) :
    x.isPrefixOf s = true := by
  induction x generalizing s with
  | nil => simp [List.isPrefixOf]
  | cons c cs ih =>
    cases s with
    | nil => simp [List.isPrefixOf] at h
    | cons c2 s2 =>
      simp only [List.cons_append, List.isPrefixOf, Bool.and_eq_true] at h ⊢
      exact ⟨h.1, ih h.2⟩

theorem findIdx?_none_not_pref {pat s : List Char} (h : findIdx? pat s = none) :
    ∀ q, ¬ pat.isPrefixOf (s.drop q) = true := by
  induction s with
  | nil =>
    intro q hq
    simp only [findIdx?] at h
    rw [List.drop_nil, isPrefixOf_nil_iff] at hq
    simp [hq] at h
  | cons c cs ih =>
    intro q hq
    simp only [findIdx?] at h
    cases hp : pat.isPrefixOf (c :: cs) with
    | true => rw [hp] at h; simp at h
    | false =>
      rw [hp] at h
      simp only [Bool.false_eq_true, if_false] at h
      have h2 : findIdx? pat cs = none := by
        cases hf : findIdx? pat cs with
        | none => rfl
        | some v => rw [hf] at h; simp at h
      cases q with
      | zero => rw [List.drop_zero] at hq; rw [hq] at hp; cases hp
      | succ q2 => exact ih h2 q2 (by simpa using hq)

theorem findIdx?_isSome_of_pref {pat s : List Char} {q : Nat}
    (h : pat.isPrefixOf (s.drop q) = true) : (findIdx? pat s).isSome := by
  induction s generalizing q with
  | nil =>
    rw [List.drop_nil, isPrefixOf_nil_iff] at h
    simp [findIdx?, h]
  | cons c cs ih =>
    simp only [findIdx?]
    cases hp : pat.isPrefixOf (c :: cs) with
    | true => simp [hp]
    | false =>
      simp only [Bool.false_eq_true, if_false]
      cases q with
      | zero => rw [List.drop_zero] at h; rw [h] at hp; cases hp
      | succ q2 =>
        have h2 := ih (q := q2) (by simpa using h)
        cases hf : findIdx? pat cs with
        | none => rw [hf] at h2; simp at h2
        | some v => simp [hf]

theorem findIdx?_some_pref {pat s : List Char} {q : Nat}
    (h : findIdx? pat s = some q) : pat.isPrefixOf (s.drop q) = true := by
  induction s generalizing q with
  | nil =>
    simp only [findIdx?] at h
    by_cases hp : pat.isEmpty
    · rw [if_pos hp] at h
      cases h
      cases pat with
      | nil => simp [List.isPrefixOf]
      | cons a as => simp [List.isEmpty] at hp
    · rw [if_neg hp] at h; cases h
  | cons c cs ih =>
    simp only [findIdx?] at h
    cases hp : pat.isPrefixOf (c :: cs) with
    | true =>
      rw [hp] at h
      rw [if_pos rfl] at h
      cases h
      simpa using hp
    | false =>
      rw [hp] at h
      simp only [Bool.false_eq_true, if_false] at h
      cases hf : findIdx? pat cs with
      | none => rw [hf] at h; simp at h
      | some v =>
        rw [hf] at h
        simp only [Option.map_some'] at h
        cases h
        simpa using ih hf

/-- The first line of a document is an initial piece of it. -/
theorem headLine_decomp (cs : List Char) :
    ∃ rest, cs = (splitLines cs).headD [] ++ rest := by
  cases hs : splitLines cs with
  | nil => exact absurd hs (splitLines_ne_nil cs)
  | cons x xs =>
    cases xs with
    | nil =>
      refine ⟨[], ?_⟩
      have := joinLines_splitLines cs
      rw [hs] at this
      simpa [joinLines] using this.symm
    | cons y ys =>
      refine ⟨'\n' :: joinLines (y :: ys), ?_⟩
      have := joinLines_splitLines cs
      rw [hs, joinLines_cons (by simp)] at this
      simpa using this.symm

/-- A line of a document is a contiguous piece of it. -/
theorem mem_splitLines_decomp {l s : List Char} (h : l ∈ splitLines s) :
    ∃ a b, s = a ++ l ++ b := by
  induction s generalizing l with
  | nil =>
    simp only [splitLines, List.mem_singleton] at h
    exact ⟨[], [], by simp [h]⟩
  | cons c cs ih =>
    by_cases hc : c = '\n'
    · subst hc
      rw [splitLines_nl] at h
      rcases List.mem_cons.mp h with h1 | h1
      · exact ⟨[], '\n' :: cs, by simp [h1]⟩
      · obtain ⟨a, b, hab⟩ := ih h1
        exact ⟨'\n' :: a, b, by simp [hab]⟩
    · rw [splitLines_cons hc] at h
      rcases List.mem_cons.mp h with h1 | h1
      · subst h1
        obtain ⟨rest, hcs⟩ := headLine_decomp cs
        exact ⟨[], rest, by simpa using congrArg (c :: ·) hcs⟩
      · have hmem : l ∈ splitLines cs := by
          cases hs : splitLines cs with
          | nil => exact absurd hs (splitLines_ne_nil cs)
          | cons x xs => rw [hs] at h1; simp [hs, List.mem_cons]; right; exact h1
        obtain ⟨a, b, hab⟩ := ih hmem
        exact ⟨c :: a, b, by simp [hab]⟩

/-- `trim l` occurs inside `l`, flanked by the stripped whitespace. -/
theorem trim_decomp (l : List Char) : ∃ w1 w2, l = w1 ++ trim l ++ w2 := by
  refine ⟨l.takeWhile isWS, ((l.dropWhile isWS).reverse.takeWhile isWS).reverse, ?_⟩
  conv_lhs => rw [← List.takeWhile_append_dropWhile (p := isWS) (l := l)]
  rw [List.append_assoc]
  congr 1
  conv_lhs => rw [← List.reverse_reverse (l.dropWhile isWS),
    ← List.takeWhile_append_dropWhile (p := isWS) (l := (l.dropWhile isWS).reverse)]
  rw [List.reverse_append]
  rfl

/-!
## Behaviour on marker-free documents, and claim C1
-/

theorem scan_no_opener {eat : List Char → Nat} {s : List Char} (fuel : Nat)
    (h : findIdx? openerStr s = none) : scan eat fuel s = [.copy s] := by
  cases fuel with
  | zero => rfl
  | succ f => simp [scan, h]

theorem render_copy (s : List Char) : render [Seg.copy s] = s := by
  simp [render, Seg.out]

theorem cleanup_keep_all {all ls : List (List Char)}
    (h : ∀ l ∈ ls, trim l ≠ bt3) : ∀ i, cleanupAux all i ls = ls := by
  induction ls with
  | nil => intro i; rfl
  | cons l ls ih =>
    intro i
    have hk : keepLine all i l = true := by
      unfold keepLine
      simp [h l (List.mem_cons_self l ls)]
    simp [cleanupAux, hk, ih (fun x hx => h x (List.mem_cons_of_mem l hx))]

/-- If `"```"` does not occur in `d`, then no `"```mermaid\n"` occurs. -/
theorem no_opener_of_no_bt3 {d : List Char} (h : findIdx? bt3 d = none) :
    findIdx? openerStr d = none := by
  cases hf : findIdx? openerStr d with
  | none => rfl
  | some q =>
    have hpre := findIdx?_some_pref hf
    have hb : bt3.isPrefixOf (d.drop q) = true :=
      isPrefixOf_of_append (x := bt3) (y := ("mermaid\n").data) hpre
    have := findIdx?_isSome_of_pref hb
    rw [h] at this
    simp at this

/-- If `"```"` does not occur in `d`, then no line of `d` strips to `"```"`. -/
theorem no_bare_line_of_no_bt3 {d : List Char} (h : findIdx? bt3 d = none) :
    ∀ l ∈ splitLines d, trim l ≠ bt3 := by
  intro l hl htr
  obtain ⟨a, b, hab⟩ := mem_splitLines_decomp hl
  obtain ⟨w1, w2, hw⟩ := trim_decomp l
  rw [htr] at hw
  have hd : d = (a ++ w1) ++ (bt3 ++ (w2 ++ b)) := by
    rw [hab, hw]
    simp
  have hp : bt3.isPrefixOf (d.drop (a ++ w1).length) = true := by
    rw [hd, List.drop_left]
    exact isPrefixOf_self_append bt3 (w2 ++ b)
  have := findIdx?_isSome_of_pref hp
  rw [h] at this
  simp at this

/-- Claim C1 as stated: both implementations of `clean_mermaid_blocks` are
idempotent on every input document. -/
def claimIdempotent : Prop :=
  ∀ d : List Char, cleanA (cleanA d) = cleanA d ∧ cleanB (cleanB d) = cleanB d

/-- Claim C1 is false. `src/mermaid.py` on `"a\n```\nb\n```"`: the first
pass deletes the first orphan marker (no fence in its look-back window) and
keeps the second (the first marker is in its window); the second pass then
deletes the survivor. `src/modules/mermaid.py` on
`"```mermaid\n```\n\na\n```"`: the first pass strips the inner stray fence
but keeps the exposed interior blank line, the second pass strips that
blank line because `fix_mermaid_block` strips the group. -/
theorem claim_C1_counterexample :
    ¬ claimIdempotent ∧
      cleanA (cleanA (("a\n```\nb\n```").data)) ≠ cleanA (("a\n```\nb\n```").data) ∧
      cleanB (cleanB (("```mermaid\n```\n\na\n```").data)) ≠
        cleanB (("```mermaid\n```\n\na\n```").data) := by
  refine ⟨fun h => ?_, by decide, by decide⟩
  exact absurd ((h (("a\n```\nb\n```").data)).1) (by decide)

/-- Both implementations act as the identity on documents in which the
fence marker `"```"` does not occur. -/
theorem clean_id_of_no_bt3 (d : List Char) (h : findIdx? bt3 d = none) :
    cleanA d = d ∧ cleanB d = d := by
  have hop := no_opener_of_no_bt3 h
  have hsubA : subA d = d := by
    unfold subA scanA
    rw [scan_no_opener _ hop, render_copy]
  have hsubB : subB d = d := by
    unfold subB scanB
    rw [scan_no_opener _ hop, render_copy]
  have hcleanA : cleanA d = d := by
    unfold cleanA cleanupLines
    rw [hsubA, cleanup_keep_all (no_bare_line_of_no_bt3 h) 0, joinLines_splitLines]
  exact ⟨hcleanA, hsubB⟩

/-!
## Compositional lemmas for `validate_notes_closure`
-/

/-- Number of slide-separator lines. -/
def countSep (ls : List (List Char)) : Nat :=
  ls.countP (fun l => decide (trim l = sep3))

/-- A line is neutral for the validator when its stripped form is neither
the separator, nor a notes-open directive, nor the notes closer. -/
def neutralLine (l : List Char) : Prop :=
  trim l ≠ sep3 ∧ notesOpenTok.isPrefixOf (trim l) = false ∧ trim l ≠ colon3

instance (l : List Char) : Decidable (neutralLine l) := by
  unfold neutralLine
  infer_instance

theorem notesLoop_append (L M : List (List Char)) : ∀ (i : Nat) (b : Bool) (s : Nat),
    notesLoop (L ++ M) i b s =
      ((notesLoop L i b s).1 ++
        (notesLoop M (i + L.length) (notesLoop L i b s).2.1 (notesLoop L i b s).2.2).1,
        (notesLoop M (i + L.length) (notesLoop L i b s).2.1 (notesLoop L i b s).2.2).2) := by
  induction L with
  | nil => intro i b s; simp [notesLoop]
  | cons l L ih =>
    intro i b s
    have hidx : i + (l :: L).length = (i + 1) + L.length := by
      simp [List.length_cons]; omega
    simp only [List.cons_append, notesLoop, hidx]
    split_ifs <;> simp [ih, List.append_assoc]

/-- The final slide number is the starting one plus the separator count. -/
theorem notesLoop_slide : ∀ (ls : List (List Char)) (i : Nat) (b : Bool) (s : Nat),
    (notesLoop ls i b s).2.2 = s + countSep ls := by
  intro ls
  induction ls with
  | nil => intro i b s; simp [notesLoop, countSep]
  | cons l ls ih =>
    intro i b s
    by_cases h1 : trim l = sep3
    · simp only [notesLoop, if_pos h1]
      simp [ih, countSep, List.countP_cons, h1]
      omega
    · by_cases h2 : notesOpenTok.isPrefixOf (trim l) = true
      · simp only [notesLoop, if_neg h1, if_pos h2]
        simp [ih, countSep, List.countP_cons, h1]
      · by_cases h3 : trim l = colon3
        · simp only [notesLoop, if_neg h1, if_neg h2, if_pos h3]
          by_cases hb : b = true
          · simp [hb, ih, countSep, List.countP_cons, h1]
          · simp [hb, ih, countSep, List.countP_cons, h1]
        · simp only [notesLoop, if_neg h1, if_neg h2, if_neg h3]
          simp [ih, countSep, List.countP_cons, h1]

/-- Neutral lines change nothing but the line counter. -/
theorem notesLoop_neutral : ∀ (T : List (List Char)) (i : Nat) (b : Bool) (s : Nat),
    (∀ l ∈ T, neutralLine l) → notesLoop T i b s = ([], b, s) := by
  intro T
  induction T with
  | nil => intro i b s _; rfl
  | cons l T ih =>
    intro i b s h
    obtain ⟨h1, h2, h3⟩ := h l (List.mem_cons_self l T)
    simp only [notesLoop]
    rw [if_neg h1, if_neg (by simp [h2]), if_neg h3]
    exact ih (i + 1) b s (fun x hx => h x (List.mem_cons_of_mem l hx))

/-- A notes-open directive never strips to the separator. -/
theorem open_ne_sep {o : List Char} (ho : notesOpenTok.isPrefixOf (trim o) = true) :
    trim o ≠ sep3 := by
  intro h
  rw [h] at ho
  exact absurd ho (by decide)

/-!
## Claims C6, C7, C8, C10 — the structural validator
-/

/-- Structural well-formedness of a line list with respect to notes
regions: scanning with state `b` (notes currently open), every notes-open
directive is matched by exactly one closer before the next slide separator
and before the end, with no stray closer and no repeated open. This is the
matching hypothesis of claim C6. -/
def notesBalanced : Bool → List (List Char) → Bool
  | b, [] => !b
  | b, l :: ls =>
    if trim l = sep3 then !b && notesBalanced false ls
    else if notesOpenTok.isPrefixOf (trim l) then !b && notesBalanced true ls
    else if trim l = colon3 then b && notesBalanced false ls
    else notesBalanced b ls

theorem notesLoop_balanced : ∀ (ls : List (List Char)) (i : Nat) (b : Bool) (s : Nat),
    notesBalanced b ls = true → notesLoop ls i b s = ([], false, s + countSep ls) := by
  intro ls
  induction ls with
  | nil =>
    intro i b s h
    simp only [notesBalanced, Bool.not_eq_true'] at h
    simp [notesLoop, h, countSep]
  | cons l ls ih =>
    intro i b s h
    by_cases h1 : trim l = sep3
    · rw [notesBalanced, if_pos h1, Bool.and_eq_true, Bool.not_eq_true'] at h
      simp only [notesLoop, if_pos h1, h.1]
      rw [ih (i + 1) false (s + 1) h.2]
      simp [countSep, List.countP_cons, h1]
      omega
    · by_cases h2 : notesOpenTok.isPrefixOf (trim l) = true
      · rw [notesBalanced, if_neg h1, if_pos h2, Bool.and_eq_true, Bool.not_eq_true'] at h
        simp only [notesLoop, if_neg h1, if_pos h2, h.1]
        rw [ih (i + 1) true s h.2]
        simp [countSep, List.countP_cons, h1]
      · by_cases h3 : trim l = colon3
        · rw [notesBalanced, if_neg h1, if_neg (by simpa using h2), if_pos h3,
            Bool.and_eq_true] at h
          simp only [notesLoop, if_neg h1, if_neg h2, if_pos h3, h.1]
          rw [ih (i + 1) false s h.2]
          simp [countSep, List.countP_cons, h1]
        · rw [notesBalanced, if_neg h1, if_neg (by simpa using h2), if_neg h3] at h
          simp only [notesLoop, if_neg h1, if_neg h2, if_neg h3]
          rw [ih (i + 1) b s h]
          simp [countSep, List.countP_cons, h1]

/-- Claim C6: a document in which every notes-open directive is matched by
exactly one notes-close directive before the next slide separator and
before the end of the document (the `notesBalanced` automaton) validates
with an empty error list and `is_valid = true`; and on every document the
returned flag equals emptiness of the returned error list. -/
theorem claim_C6 (d : List Char) (h : notesBalanced false (splitLines d) = true) :
    validate_notes_closure d = (true, []) ∧
      ∀ e : List Char, (validate_notes_closure e).1 = (validate_notes_closure e).2.isEmpty := by
  constructor
  · unfold validate_notes_closure
    rw [notesLoop_balanced _ 1 false 1 h]
    simp
  · intro e
    rfl

/-- Witness for `claim_C6` on a two-slide document with one closed notes
region. -/
theorem claim_C6_witness :
    notesBalanced false (splitLines (("## S\n::: notes\nhi\n:::\n---\n## T").data)) = true ∧
      validate_notes_closure (("## S\n::: notes\nhi\n:::\n---\n## T").data) = (true, []) :=
  ⟨by decide, (claim_C6 (("## S\n::: notes\nhi\n:::\n---\n## T").data) (by decide)).1⟩

/-- Claim C7: a document whose lines are a clean closed prefix `L`, then a
notes-open directive, then only neutral lines, produces exactly one
violation — the end-of-document message — attributed to the slide `s`
reached at the open directive, which is also the last slide's ordinal
`1 + countSep`. -/
theorem claim_C7 (d : List Char) (L T : List (List Char)) (o : List Char) (s : Nat)
    (hd : splitLines d = L ++ o :: T)
    (hL : notesLoop L 1 false 1 = ([], false, s))
    (ho : notesOpenTok.isPrefixOf (trim o) = true)
    (hT : ∀ l ∈ T, neutralLine l) :
    validate_notes_closure d = (false, [msgEof s]) ∧ s = 1 + countSep (splitLines d) := by
  have hoT : notesLoop (o :: T) (1 + L.length) false s = ([], true, s) := by
    simp only [notesLoop]
    rw [if_neg (open_ne_sep ho), if_pos ho]
    simp [notesLoop_neutral T _ true s hT]
  have hall : notesLoop (splitLines d) 1 false 1 = ([], true, s) := by
    rw [hd, notesLoop_append]
    simp [hL, hoT]
  refine ⟨?_, ?_⟩
  · unfold validate_notes_closure
    rw [hall]
    simp
  · have h1 := notesLoop_slide L 1 false 1
    rw [hL] at h1
    have h2 : countSep (splitLines d) = countSep L := by
      rw [hd]
      unfold countSep
      rw [List.countP_append, List.countP_cons]
      have ho2 : decide (trim o = sep3) = false := by simp [open_ne_sep ho]
      have hT2 : (T.countP fun l => decide (trim l = sep3)) = 0 := by
        rw [List.countP_eq_zero]
        intro a ha
        simp [(hT a ha).1]
      simp [ho2, hT2]
    simp only [] at h1
    omega

/-- Witness for `claim_C7`: a document whose notes region stays open to the
end of the document, on slide 2. -/
theorem claim_C7_witness :
    (splitLines (("# t\n---\nx\n::: notes\nhi").data)
        = [("# t").data, ("---").data, ("x").data] ++ ("::: notes").data :: [("hi").data] ∧
      notesLoop [("# t").data, ("---").data, ("x").data] 1 false 1 = ([], false, 2) ∧
      notesOpenTok.isPrefixOf (trim (("::: notes").data)) = true ∧
      ∀ l ∈ [("hi").data], neutralLine l) ∧
      validate_notes_closure (("# t\n---\nx\n::: notes\nhi").data) = (false, [msgEof 2]) :=
  ⟨⟨by decide, by decide, by decide, by decide⟩,
    (claim_C7 (("# t\n---\nx\n::: notes\nhi").data)
      [("# t").data, ("---").data, ("x").data] [("hi").data] (("::: notes").data) 2
      (by decide) (by decide) (by decide) (by decide)).1⟩

/-- Claim C8: after a clean closed prefix `L` (ending at slide `s`), a
notes-open directive, neutral lines `M`, then a slide separator with no
closer in between, the validator emits exactly the cross-slide violation
attributed to slide `s` (where the directive was opened) at the
separator's line number, resets the notes state to closed, and increments
the slide counter to `s + 1` for the remaining lines `R`. -/
theorem claim_C8 (d : List Char) (L M R : List (List Char)) (o c : List Char) (s : Nat)
    (hd : splitLines d = L ++ o :: (M ++ c :: R))
    (hL : notesLoop L 1 false 1 = ([], false, s))
    (ho : notesOpenTok.isPrefixOf (trim o) = true)
    (hM : ∀ l ∈ M, neutralLine l)
    (hc : trim c = sep3) :
    notesLoop (splitLines d) 1 false 1 =
      (msgSep s (L.length + M.length + 2) ::
          (notesLoop R (L.length + M.length + 3) false (s + 1)).1,
        (notesLoop R (L.length + M.length + 3) false (s + 1)).2) := by
  have hMC : notesLoop (M ++ c :: R) (L.length + 2) true s =
      (msgSep s (L.length + M.length + 2) ::
          (notesLoop R (L.length + M.length + 3) false (s + 1)).1,
        (notesLoop R (L.length + M.length + 3) false (s + 1)).2) := by
    rw [notesLoop_append]
    rw [notesLoop_neutral M (L.length + 2) true s hM]
    simp only [notesLoop, if_pos hc]
    have e1 : L.length + 2 + M.length = L.length + M.length + 2 := by omega
    have e2 : L.length + 2 + M.length + 1 = L.length + M.length + 3 := by omega
    simp [e1, e2]
  have hstep : notesLoop (o :: (M ++ c :: R)) (1 + L.length) false s =
      (msgSep s (L.length + M.length + 2) ::
          (notesLoop R (L.length + M.length + 3) false (s + 1)).1,
        (notesLoop R (L.length + M.length + 3) false (s + 1)).2) := by
    simp only [notesLoop]
    rw [if_neg (open_ne_sep ho), if_pos ho]
    have e3 : 1 + L.length + 1 = L.length + 2 := by omega
    simp [e3, hMC]
  rw [hd, notesLoop_append]
  simp [hL, hstep]

/-- Witness for `claim_C8` on a document whose notes region leaks across
the separator after slide 1. -/
theorem claim_C8_witness :
    (splitLines (("t\n::: notes\nx\n---\nend").data)
        = [("t").data] ++ ("::: notes").data :: ([("x").data] ++ ("---").data :: [("end").data]) ∧
      notesLoop [("t").data] 1 false 1 = ([], false, 1) ∧
      notesOpenTok.isPrefixOf (trim (("::: notes").data)) = true ∧
      (∀ l ∈ [("x").data], neutralLine l) ∧
      trim (("---").data) = sep3) ∧
      notesLoop (splitLines (("t\n::: notes\nx\n---\nend").data)) 1 false 1 =
        (msgSep 1 4 :: (notesLoop [("end").data] 5 false 2).1,
          (notesLoop [("end").data] 5 false 2).2) :=
  ⟨⟨by decide, by decide, by decide, by decide, by decide⟩,
    claim_C8 (("t\n::: notes\nx\n---\nend").data)
      [("t").data] [("x").data] [("end").data] (("::: notes").data) (("---").data) 1
      (by decide) (by decide) (by decide) (by decide) (by decide)⟩

/-- Claim C10: the validator classifies each line by its stripped form —
a slide separator is exactly the stripped string `"---"` (a longer dash run
or trailing text is neutral), a notes opener is any stripped line starting
with `"::: notes"` (trailing text still opens, a missing space does not), a
closer is exactly the stripped string `":::"` (`"::::"` is neutral), and
every other line leaves the `(notes_open, slide)` state unchanged. -/
theorem claim_C10 :
    (∀ (ls : List (List Char)) (i : Nat) (b : Bool) (s : Nat),
        notesLoop (("----").data :: ls) i b s = notesLoop ls (i + 1) b s) ∧
    (∀ (ls : List (List Char)) (i : Nat) (b : Bool) (s : Nat),
        notesLoop (("--- x").data :: ls) i b s = notesLoop ls (i + 1) b s) ∧
    (∀ (ls : List (List Char)) (i : Nat) (s : Nat),
        notesLoop (("  ---  ").data :: ls) i false s = notesLoop ls (i + 1) false (s + 1)) ∧
    (∀ (ls : List (List Char)) (i : Nat) (s : Nat),
        notesLoop (("::: notes extra").data :: ls) i false s = notesLoop ls (i + 1) true s) ∧
    (∀ (ls : List (List Char)) (i : Nat) (b : Bool) (s : Nat),
        notesLoop ((":::notes").data :: ls) i b s = notesLoop ls (i + 1) b s) ∧
    (∀ (ls : List (List Char)) (i : Nat) (s : Nat),
        notesLoop ((" ::: ").data :: ls) i true s = notesLoop ls (i + 1) false s) ∧
    (∀ (ls : List (List Char)) (i : Nat) (b : Bool) (s : Nat),
        notesLoop (("::::").data :: ls) i b s = notesLoop ls (i + 1) b s) ∧
    (∀ (l : List Char) (ls : List (List Char)) (i : Nat) (b : Bool) (s : Nat),
        neutralLine l → notesLoop (l :: ls) i b s = notesLoop ls (i + 1) b s) := by
  refine ⟨?_, ?_, ?_, ?_, ?_, ?_, ?_, ?_⟩
  · intro ls i b s
    simp only [notesLoop]
    rw [if_neg (by decide), if_neg (by decide), if_neg (by decide)]
  · intro ls i b s
    simp only [notesLoop]
    rw [if_neg (by decide), if_neg (by decide), if_neg (by decide)]
  · intro ls i s
    simp only [notesLoop]
    rw [if_pos (by decide)]
    simp
  · intro ls i s
    simp only [notesLoop]
    rw [if_neg (by decide), if_pos (by decide)]
    simp
  · intro ls i b s
    simp only [notesLoop]
    rw [if_neg (by decide), if_neg (by decide), if_neg (by decide)]
  · intro ls i s
    simp only [notesLoop]
    rw [if_neg (by decide), if_neg (by decide), if_pos (by decide)]
    simp
  · intro ls i b s
    simp only [notesLoop]
    rw [if_neg (by decide), if_neg (by decide), if_neg (by decide)]
  · intro l ls i b s h
    simp only [notesLoop]
    rw [if_neg h.1, if_neg (by simp [h.2.1]), if_neg h.2.2]

/-- Witness for `claim_C10`: the general neutral-line clause applied to a
concrete plain line. -/
theorem claim_C10_witness :
    neutralLine (("plain text").data) ∧
      notesLoop (("plain text").data :: [("---").data]) 7 true 3
        = notesLoop [("---").data] 8 true 3 :=
  ⟨by decide,
    claim_C10.2.2.2.2.2.2.2 (("plain text").data) [("---").data] 7 true 3 (by decide)⟩

/-!
## Claims C2 and C3 — orchestrator return contract and configuration guard
-/

/-- A mocked text-generation service for exercising the orchestrators: the
validation user prompts of both files start with `"\nPlease"`, the
generation user prompts with `"\nAnalyze"` / `"\nEnhance"`, so dispatching
on the second character distinguishes the two calls. -/
def stubClient : List Char → List Char → List Char × Nat :=
  fun _sys user =>
    if user.getD 1 ' ' = 'P' then (("ok line").data, 22)
    else (("::: notes\nx\n:::").data, 11)

/-- Claim C2 at a failing input. `src/modules/mermaid.py` returns the
enhanced content unchanged and sums the token counts, but its
`final_content` is the `(is_valid, errors)` pair produced by
`validate_notes_closure`, not the processed markdown string: the source
rebinds `cleaned_content = self.validate_notes_closure(cleaned_content)`,
contradicting the `-> Tuple[str, Any]` annotation and docstring of
`validate_and_fix_diagrams`. `src/mermaid.py` returns only
`(final_content, usage)` with no enhanced content at all. -/
theorem claim_C2_bug :
    processMermaidM stubClient (("slide").data)
      = ((("::: notes\nx\n:::").data),
          (validate_notes_closure (cleanB (("ok line").data)), (11, 22, 33))) ∧
      validate_notes_closure (cleanB (("ok line").data)) = (true, []) ∧
      processMermaidO stubClient (("slide").data) = ((("ok line").data), (11, 22, 33)) := by
  refine ⟨by decide, by decide, by decide⟩

/-- Claim C3 as stated: with neither a free-text prompt nor a reference
path, the pipeline makes zero calls to the text-generation service. -/
def claimConfigGuard : Prop :=
  ∀ (fread : List Char → List Char) (client : List Char → List Char → List Char × Nat)
    (n : Nat), ((generate_structure fread client [] none n).2).length = 0

/-- Claim C3 is false: `generate_structure` has no configuration guard —
with an empty prompt and no reference path it still performs exactly one
service call. -/
theorem claim_C3_counterexample : ¬ claimConfigGuard := by
  intro h
  exact Nat.one_ne_zero (h (fun _ => []) (fun _ _ => ([], 0)) 20)

/-- Claim C3, amended: when neither input is supplied, the pipeline does
not fail fast; the reference content silently defaults to the empty string
and exactly one text-generation call is made with both inputs empty. -/
theorem claim_C3_amended :
    ∀ (fread : List Char → List Char) (client : List Char → List Char → List Char × Nat)
      (n : Nat),
      ((generate_structure fread client [] none n).2).length = 1 ∧
        (generate_structure fread client [] none n).2
          = [(structureSystemPrompt, structureUserPrompt [] [] n)] := by
  intro fread client n
  exact ⟨rfl, rfl⟩

/-!
## Claim C9 — orphan-marker deletion window
-/

/-- The orphan scan deletes at most lines. -/
theorem cleanupAux_sublist (all : List (List Char)) :
    ∀ (i : Nat) (ls : List (List Char)), (cleanupAux all i ls).Sublist ls := by
  intro i ls
  induction ls generalizing i with
  | nil => simp [cleanupAux]
  | cons l ls ih =>
    simp only [cleanupAux]
    by_cases hk : keepLine all i l = true
    · rw [if_pos hk]
      exact List.Sublist.cons₂ l (ih (i + 1))
    · rw [if_neg hk]
      exact List.Sublist.cons l (ih (i + 1))

/-- Modelled from the spec (§4.2 step 4): orphan deletion with a look-back
window of the previous ten lines, for comparison with the code's window.
Keep a line unless it strips to the bare marker and no line in the window
`[i-10, i-1]` starts, after stripping, with the marker. -/
def specKeepLineTen (all : List (List Char)) (i : Nat) (l : List Char) : Bool :=
  !(trim l = bt3 &&
    !((List.range' (i - 10) (min i 10)).any fun j => bt3.isPrefixOf (trim (all.getD j []))))

/-- Modelled from the spec (§4.2 step 4): the orphan-deletion pass with the
ten-line window, claimed by C9 for both implementations. -/
def specOrphanAux (all : List (List Char)) : Nat → List (List Char) → List (List Char)
  | _, [] => []
  | i, l :: ls =>
    if specKeepLineTen all i l then l :: specOrphanAux all (i + 1) ls
    else specOrphanAux all (i + 1) ls

/-- Modelled from the spec (§4.2 step 4): orphan deletion over a document's
lines with a ten-line look-back window. -/
def specOrphanFilterTen (ls : List (List Char)) : List (List Char) :=
  specOrphanAux ls 0 ls

/-- Claim C9 as stated, specialized to documents without any diagram block
(so every line is outside every recognized block): both implementations
delete a bare marker line exactly when it has no fence within the previous
ten lines, and delete nothing else. -/
def claimOrphanTen : Prop :=
  ∀ d : List Char, findIdx? openerStr d = none →
    splitLines (cleanA d) = specOrphanFilterTen (splitLines d) ∧
    splitLines (cleanB d) = specOrphanFilterTen (splitLines d)

/-- Claim C9 is false twice over: `src/modules/mermaid.py` performs no
orphan deletion at all (`"x\n```\ny"` is returned unchanged although its
bare marker has no opener anywhere), and `src/mermaid.py` uses a nine-line
window — `range(i-1, max(-1, i-10), -1)` stops above `i-10` — so a closer
whose opener is exactly ten lines back is deleted although the claim keeps
it. -/
theorem claim_C9_counterexample :
    ¬ claimOrphanTen ∧
      cleanB (("x\n```\ny").data) = ("x\n```\ny").data ∧
      cleanA (("```q\na\na\na\na\na\na\na\na\na\n```").data)
        = ("```q\na\na\na\na\na\na\na\na\na").data := by
  refine ⟨fun h => ?_, by decide, by decide⟩
  exact absurd ((h (("x\n```\ny").data) (by decide)).2) (by decide)

/-- Line-level view of `cleanA`: splitting its output recovers exactly the
lines the orphan scan kept (provided it kept at least one). -/
theorem cleanA_splitLines (d : List Char)
    (hne : cleanupLines (splitLines (subA d)) ≠ []) :
    splitLines (cleanA d) = cleanupLines (splitLines (subA d)) := by
  unfold cleanA
  refine splitLines_joinLines _ hne ?_
  intro l hl
  exact splitLines_no_nl (subA d) l
    ((cleanupAux_sublist (splitLines (subA d)) 0 (splitLines (subA d))).subset hl)

/-- Claim C9, amended: after the substitution pass, `src/mermaid.py`
deletes exactly the lines rejected by `keepLine` — a line is kept unless it
strips to the bare marker and no line among the previous `min i 9` lines
strips to a marker-led line — while `src/modules/mermaid.py` deletes
nothing after its substitution pass. -/
theorem claim_C9_amended (d : List Char) :
    (cleanupLines (splitLines (subA d)) ≠ [] →
      splitLines (cleanA d) = cleanupLines (splitLines (subA d))) ∧
    cleanB d = subB d ∧
    (∀ (all : List (List Char)) (i : Nat) (l : List Char),
      keepLine all i l =
        !(decide (trim l = bt3) &&
          !((List.range' (i - 9) (min i 9)).any
            fun j => bt3.isPrefixOf (trim (all.getD j []))))) :=
  ⟨cleanA_splitLines d, rfl, fun _ _ _ => rfl⟩

/-- Witness for `claim_C9_amended` on a document with one surviving orphan
configuration. -/
theorem claim_C9_amended_witness :
    cleanupLines (splitLines (subA (("a\n```\nb").data))) ≠ [] ∧
      splitLines (cleanA (("a\n```\nb").data))
        = cleanupLines (splitLines (subA (("a\n```\nb").data))) :=
  ⟨by decide, (claim_C9_amended (("a\n```\nb").data)).1 (by decide)⟩

/-!
## Claim C4 — block reassembly
-/

/-- The backtick character (codepoint 96). -/
def tick : Char := Char.ofNat 96

theorem bt3_eq : bt3 = [tick, tick, tick] := by decide

theorem closer4_eq : closer4 = '\n' :: bt3 := by decide

/-- `splitLines` distributes over any newline, with no side condition. -/
theorem splitLines_append_nl2 (a z : List Char) :
    splitLines (a ++ '\n' :: z) = splitLines a ++ splitLines z := by
  induction a with
  | nil => simp [splitLines]
  | cons c cs ih =>
    by_cases hc : c = '\n'
    · subst hc
      rw [List.cons_append, splitLines_nl, splitLines_nl, ih]
      rfl
    · rw [List.cons_append, splitLines_cons hc, splitLines_cons hc, ih]
      cases hs : splitLines cs with
      | nil => exact absurd hs (splitLines_ne_nil cs)
      | cons l ls => simp

theorem joinLines_append_single (x : List Char) :
    ∀ (L : List (List Char)), L ≠ [] →
      joinLines (L ++ [x]) = joinLines L ++ '\n' :: x := by
  intro L
  induction L with
  | nil => intro h; exact absurd rfl h
  | cons l L ih =>
    intro _
    cases L with
    | nil => simp [joinLines]
    | cons y ys =>
      rw [List.cons_append, joinLines_cons (by simp), joinLines_cons (by simp),
        ih (by simp)]
      simp

/-- A marker prefix survives appending a newline-led tail only if it was
already a prefix of the head. -/
theorem bt3_pref_of_append_nl {y z : List Char}
    (h : bt3.isPrefixOf (y ++ '\n' :: z) = true) : bt3.isPrefixOf y = true := by
  have hne : (tick == '\n') = false := by decide
  rw [bt3_eq] at h ⊢
  match y with
  | [] => simp [List.isPrefixOf, hne] at h
  | [a] =>
    simp only [List.cons_append, List.nil_append, List.isPrefixOf, Bool.and_eq_true] at h
    rw [show (tick == '\n') = false from by decide] at h
    simp at h
  | [a, b] =>
    simp only [List.cons_append, List.nil_append, List.isPrefixOf, Bool.and_eq_true] at h
    rw [show (tick == '\n') = false from by decide] at h
    simp at h
  | a :: b :: c :: rest =>
    simp only [List.cons_append, List.isPrefixOf, Bool.and_eq_true] at h ⊢
    exact ⟨h.1, h.2.1, h.2.2.1, trivial⟩

/-- No closer pattern starts strictly inside a newline-free line. -/
theorem not_closer_in_line {l t : List Char} (hnl : '\n' ∉ l) {j : Nat}
    (hj : j < l.length)
    (h : closer4.isPrefixOf ((l ++ '\n' :: t).drop j) = true) : False := by
  rw [List.drop_append_of_le_length (Nat.le_of_lt hj)] at h
  cases hld : l.drop j with
  | nil =>
    have := congrArg List.length hld
    simp [List.length_drop] at this
    omega
  | cons a rest =>
    rw [hld, closer4_eq] at h
    simp only [List.cons_append, List.isPrefixOf, Bool.and_eq_true, beq_iff_eq] at h
    have ha : a ∈ l := List.mem_of_mem_drop (hld ▸ List.mem_cons_self a rest)
    exact hnl (h.1 ▸ ha)

/-- The first occurrence of the closer pattern in a block body followed by
a newline-led tail is not inside the body: the body's lines are
newline-free and none is marker-led. -/
theorem no_closer_inside (w : List Char) :
    ∀ (L : List (List Char)), (∀ l ∈ L, '\n' ∉ l) → (∀ l ∈ L, ¬ bt3.isPrefixOf l = true) →
      ∀ j, j < (joinLines L).length →
        ¬ closer4.isPrefixOf ((joinLines L ++ '\n' :: w).drop j) = true := by
  intro L
  induction L with
  | nil => intro _ _ j hj; simp [joinLines] at hj
  | cons l L ih =>
    intro hnl hmk j hj hpref
    have hl : '\n' ∉ l := hnl l (List.mem_cons_self l L)
    cases L with
    | nil =>
      simp only [joinLines] at hj hpref
      exact not_closer_in_line hl hj hpref
    | cons y ys =>
      rw [joinLines_cons (by simp)] at hj hpref
      rw [List.append_assoc, List.cons_append] at hpref
      rcases Nat.lt_trichotomy j l.length with hlt | heq | hgt
      · exact not_closer_in_line hl hlt hpref
      · subst heq
        rw [show (l ++ '\n' :: (joinLines (y :: ys) ++ '\n' :: w)).drop l.length
            = '\n' :: (joinLines (y :: ys) ++ '\n' :: w) from List.drop_left l _] at hpref
        rw [closer4_eq] at hpref
        simp only [List.isPrefixOf, Bool.and_eq_true, beq_self_eq_true, true_and] at hpref
        have hyz : ∃ z2, joinLines (y :: ys) ++ '\n' :: w = y ++ '\n' :: z2 := by
          cases ys with
          | nil => exact ⟨w, by simp [joinLines]⟩
          | cons y2 ys2 =>
            refine ⟨joinLines (y2 :: ys2) ++ '\n' :: w, ?_⟩
            rw [joinLines_cons (by simp)]
            simp
        obtain ⟨z2, hz2⟩ := hyz
        rw [hz2] at hpref
        exact hmk y (by simp) (bt3_pref_of_append_nl hpref)
      · obtain ⟨j2, rfl⟩ : ∃ j2, j = l.length + 1 + j2 :=
          ⟨j - (l.length + 1), by omega⟩
        rw [show l ++ '\n' :: (joinLines (y :: ys) ++ '\n' :: w)
            = (l ++ ['\n']) ++ (joinLines (y :: ys) ++ '\n' :: w) from by simp,
          show l.length + 1 + j2 = (l ++ ['\n']).length + j2 from by simp] at hpref
        rw [List.drop_append j2] at hpref
        have hjlt : j2 < (joinLines (y :: ys)).length := by
          rw [List.length_append, List.length_cons] at hj
          omega
        exact ih (fun x hx => hnl x (List.mem_cons_of_mem l hx))
          (fun x hx => hmk x (List.mem_cons_of_mem l hx)) j2 hjlt hpref

/-- `findIdx?` returns an occurrence that exists and is leftmost. -/
theorem findIdx?_eq_some_of {pat s : List Char} {q : Nat}
    (hq : pat.isPrefixOf (s.drop q) = true)
    (hmin : ∀ j, j < q → ¬ pat.isPrefixOf (s.drop j) = true) :
    findIdx? pat s = some q := by
  induction s generalizing q with
  | nil =>
    rw [List.drop_nil, isPrefixOf_nil_iff] at hq
    have hq0 : q = 0 := by
      by_contra hne
      exact hmin 0 (by omega) (by rw [List.drop_nil, isPrefixOf_nil_iff]; exact hq)
    subst hq0
    simp [findIdx?, hq]
  | cons c cs ih =>
    cases q with
    | zero =>
      rw [List.drop_zero] at hq
      simp [findIdx?, hq]
    | succ q2 =>
      have h0 : ¬ pat.isPrefixOf (c :: cs) = true := by
        have := hmin 0 (by omega)
        simpa using this
      simp only [findIdx?]
      rw [if_neg h0]
      rw [ih (by simpa using hq) (fun j hj => by
        have := hmin (j + 1) (by omega)
        simpa using this)]
      rfl

/-- The orphan scan keeps everything when every line is kept at its index. -/
theorem cleanupAux_keep_all_idx {all : List (List Char)} :
    ∀ (ls : List (List Char)) (i : Nat),
      (∀ k, k < ls.length → keepLine all (i + k) (ls.getD k []) = true) →
      cleanupAux all i ls = ls := by
  intro ls
  induction ls with
  | nil => intro i _; rfl
  | cons l ls ih =>
    intro i h
    have h0 := h 0 (by simp)
    rw [cleanupAux, if_pos (by simpa using h0)]
    congr 1
    refine ih (i + 1) (fun k hk => ?_)
    have := h (k + 1) (by simp; omega)
    rw [show i + (k + 1) = i + 1 + k from by omega] at this
    simpa using this

/-- Evaluation of one regex pass on a well-formed block body followed by
three consecutive bare closers and nothing else. -/
theorem block3_eval (eat : List Char → Nat) (heat : eat (closer4 ++ closer4) = 8)
    (L : List (List Char)) (hnl : ∀ l ∈ L, '\n' ∉ l)
    (hmk1 : ∀ l ∈ L, ¬ bt3.isPrefixOf l = true) (fuel : Nat) :
    render (scan eat (fuel + 1)
        (openerStr ++ (joinLines L ++ (closer4 ++ (closer4 ++ closer4)))))
      = fixBlock (joinLines L) := by
  have h1 : findIdx? openerStr
      (openerStr ++ (joinLines L ++ (closer4 ++ (closer4 ++ closer4)))) = some 0 :=
    findIdx?_eq_some_of (by rw [List.drop_zero]; exact isPrefixOf_self_append _ _)
      (fun j hj => absurd hj (by omega))
  have hrest : (openerStr ++ (joinLines L ++ (closer4 ++ (closer4 ++ closer4)))).drop (0 + 11)
      = joinLines L ++ (closer4 ++ (closer4 ++ closer4)) := by
    rw [show (0 + 11 : Nat) = openerStr.length from by decide, List.drop_left]
  have hocc : closer4.isPrefixOf
      ((joinLines L ++ (closer4 ++ (closer4 ++ closer4))).drop (joinLines L).length) = true := by
    rw [List.drop_left]
    exact isPrefixOf_self_append _ _
  have hmin : ∀ j, j < (joinLines L).length →
      ¬ closer4.isPrefixOf
        ((joinLines L ++ (closer4 ++ (closer4 ++ closer4))).drop j) = true := by
    intro j hj
    rw [show closer4 ++ (closer4 ++ closer4) = '\n' :: (bt3 ++ (closer4 ++ closer4)) from by
      rw [closer4_eq]; simp]
    exact no_closer_inside (bt3 ++ (closer4 ++ closer4)) L hnl hmk1 j hj
  have h2 : findIdx? closer4 (joinLines L ++ (closer4 ++ (closer4 ++ closer4)))
      = some (joinLines L).length := findIdx?_eq_some_of hocc hmin
  have htake : (joinLines L ++ (closer4 ++ (closer4 ++ closer4))).take (joinLines L).length
      = joinLines L := List.take_left _ _
  have hafter : (joinLines L ++ (closer4 ++ (closer4 ++ closer4))).drop
      ((joinLines L).length + 4) = closer4 ++ closer4 := by
    rw [List.drop_append 4]
    decide
  have hrem : (closer4 ++ closer4).drop (eat (closer4 ++ closer4)) = [] := by
    rw [heat]
    decide
  rw [scan, h1]
  simp only [hrest, h2, htake, hafter, hrem]
  rw [scan_no_opener fuel (by decide)]
  simp [render, Seg.out]

/-- `fix_mermaid_block` on a strip-stable body with no stray fence lines
reproduces the body between a single opener/closer pair. -/
theorem fixBlock_eval (L : List (List Char)) (hne : L ≠ [])
    (hnl : ∀ l ∈ L, '\n' ∉ l) (hmk2 : ∀ l ∈ L, keepInnerLine l = true)
    (htrim : trim (joinLines L) = joinLines L) :
    fixBlock (joinLines L) = openerStr ++ (joinLines L ++ closer4) := by
  unfold fixBlock
  rw [htrim, splitLines_joinLines L hne hnl, List.filter_eq_self.mpr hmk2]
  rw [show openerStr = bm10 ++ ['\n'] from by decide, closer4_eq]
  simp

/-- Evaluation of one regex pass on a well-formed block body followed by a
single bare closer and nothing else: the document is already in the shape
the pass produces. -/
theorem block1_eval (eat : List Char → Nat) (heat : eat [] = 0)
    (L : List (List Char)) (hnl : ∀ l ∈ L, '\n' ∉ l)
    (hmk1 : ∀ l ∈ L, ¬ bt3.isPrefixOf l = true) (fuel : Nat) :
    render (scan eat (fuel + 1) (openerStr ++ (joinLines L ++ closer4)))
      = fixBlock (joinLines L) := by
  have h1 : findIdx? openerStr (openerStr ++ (joinLines L ++ closer4)) = some 0 :=
    findIdx?_eq_some_of (by rw [List.drop_zero]; exact isPrefixOf_self_append _ _)
      (fun j hj => absurd hj (by omega))
  have hrest : (openerStr ++ (joinLines L ++ closer4)).drop (0 + 11)
      = joinLines L ++ closer4 := by
    rw [show (0 + 11 : Nat) = openerStr.length from by decide, List.drop_left]
  have hocc : closer4.isPrefixOf
      ((joinLines L ++ closer4).drop (joinLines L).length) = true := by
    rw [List.drop_left]
    decide
  have hmin : ∀ j, j < (joinLines L).length →
      ¬ closer4.isPrefixOf ((joinLines L ++ closer4).drop j) = true := by
    intro j hj
    rw [show (closer4 : List Char) = '\n' :: bt3 from closer4_eq]
    exact no_closer_inside bt3 L hnl hmk1 j hj
  have h2 : findIdx? closer4 (joinLines L ++ closer4)
      = some (joinLines L).length := findIdx?_eq_some_of hocc hmin
  have htake : (joinLines L ++ closer4).take (joinLines L).length
      = joinLines L := List.take_left _ _
  have hafter : (joinLines L ++ closer4).drop ((joinLines L).length + 4) = [] := by
    rw [List.drop_append 4]
    decide
  have hrem : ([] : List Char).drop (eat []) = [] := by
    rw [heat]
    decide
  rw [scan, h1]
  simp only [hrest, h2, htake, hafter, hrem]
  rw [scan_no_opener fuel (by decide)]
  simp [render, Seg.out]

/-- Modelled from the spec (§4.2 steps 2-3): reassemble a matched block as
the opener line, the inner lines minus stray marker lines with their
original relative order and blank lines preserved, and a single closer —
i.e. `fix_mermaid_block` without the `.strip()` the code applies to the
group. -/
def specFixBlock (g : List Char) : List Char :=
  bm10 ++ '\n' :: joinLines ((splitLines g).filter keepInnerLine) ++ '\n' :: bt3

/-- Claim C4 as stated: every matched block is reassembled with its inner
lines' blank lines preserved. -/
def claimBlockReassembly : Prop := ∀ g : List Char, fixBlock g = specFixBlock g

/-- Claim C4 is false at the edges of the inner content: the code strips
the matched group first, so a leading (or trailing) blank inner line is
deleted, not preserved — both implementations turn
`"```mermaid\n\nA\n```"` into `"```mermaid\nA\n```"`. A further deviation
of `src/mermaid.py` alone: its orphan scan deletes the single closer of a
well-formed block with nine or more inner lines, so the "exactly one
closing marker line" part also fails there. -/
theorem claim_C4_counterexample :
    ¬ claimBlockReassembly ∧
      cleanB (("```mermaid\n\nA\n```").data) = ("```mermaid\nA\n```").data ∧
      cleanA (("```mermaid\n\nA\n```").data) = ("```mermaid\nA\n```").data ∧
      cleanA (("```mermaid\nb\nb\nb\nb\nb\nb\nb\nb\nb\n```").data)
        = ("```mermaid\nb\nb\nb\nb\nb\nb\nb\nb\nb").data := by
  refine ⟨fun h => ?_, by decide, by decide, by decide⟩
  exact absurd (h (("\nA").data)) (by decide)

/-- A line that does not strip to the bare marker is always kept by the
orphan scan. -/
theorem keepLine_of_not_bare {all : List (List Char)} {i : Nat} {l : List Char}
    (h : trim l ≠ bt3) : keepLine all i l = true := by
  unfold keepLine
  simp [h]

/-- A line kept by `fix_mermaid_block`'s filter does not strip to the bare
marker. -/
theorem keepInner_not_bare {l : List Char} (h : keepInnerLine l = true) :
    trim l ≠ bt3 := by
  unfold keepInnerLine at h
  intro heq
  rw [heq] at h
  simp at h

/-- One `re.sub` pass of `src/modules/mermaid.py` collapses a block closed
by three consecutive bare markers to a single closer, stripping nothing
from a strip-stable body. -/
theorem cleanB_block3 (L : List (List Char)) (hne : L ≠ [])
    (hnl : ∀ l ∈ L, '\n' ∉ l)
    (hmk1 : ∀ l ∈ L, ¬ bt3.isPrefixOf l = true)
    (hmk2 : ∀ l ∈ L, keepInnerLine l = true)
    (htrim : trim (joinLines L) = joinLines L) :
    cleanB (openerStr ++ joinLines L ++ closer4 ++ closer4 ++ closer4)
      = openerStr ++ joinLines L ++ closer4 := by
  have hassoc : openerStr ++ joinLines L ++ closer4 ++ closer4 ++ closer4
      = openerStr ++ (joinLines L ++ (closer4 ++ (closer4 ++ closer4))) := by
    simp [List.append_assoc]
  show subB _ = _
  unfold subB scanB
  rw [hassoc]
  rw [block3_eval eatB (by decide) L hnl hmk1 _]
  rw [fixBlock_eval L hne hnl hmk2 htrim]
  simp [List.append_assoc]

/-- A well-formed single-closer block is a fixed point of
`src/modules/mermaid.py`'s normalization. -/
theorem cleanB_block1 (L : List (List Char)) (hne : L ≠ [])
    (hnl : ∀ l ∈ L, '\n' ∉ l)
    (hmk1 : ∀ l ∈ L, ¬ bt3.isPrefixOf l = true)
    (hmk2 : ∀ l ∈ L, keepInnerLine l = true)
    (htrim : trim (joinLines L) = joinLines L) :
    cleanB (openerStr ++ joinLines L ++ closer4)
      = openerStr ++ joinLines L ++ closer4 := by
  have hassoc : openerStr ++ joinLines L ++ closer4
      = openerStr ++ (joinLines L ++ closer4) := by
    simp [List.append_assoc]
  show subB _ = _
  unfold subB scanB
  rw [hassoc]
  rw [block1_eval eatB (by decide) L hnl hmk1 _]
  rw [fixBlock_eval L hne hnl hmk2 htrim]

/-- The orphan scan of `src/mermaid.py` keeps a whole well-formed
single-closer block, provided the body has at most eight lines: the closer
finds the opener inside its nine-line look-back window. Stated for any
document whose substitution pass yields the block. -/
theorem cleanA_of_sub (L : List (List Char)) (d : List Char)
    (hsub : subA d = openerStr ++ (joinLines L ++ closer4))
    (hne : L ≠ []) (hnl : ∀ l ∈ L, '\n' ∉ l)
    (hmk2 : ∀ l ∈ L, keepInnerLine l = true)
    (hlen : L.length ≤ 8) :
    cleanA d = openerStr ++ joinLines L ++ closer4 := by
  have houtassoc : openerStr ++ joinLines L ++ closer4
      = openerStr ++ (joinLines L ++ closer4) := by
    simp [List.append_assoc]
  have hsl : splitLines (openerStr ++ (joinLines L ++ closer4))
      = bm10 :: (L ++ [bt3]) := by
    rw [show openerStr ++ (joinLines L ++ closer4)
        = bm10 ++ '\n' :: (joinLines L ++ '\n' :: bt3) from by
      rw [show openerStr = bm10 ++ ['\n'] from by decide, closer4_eq]
      simp]
    rw [splitLines_append_nl2, splitLines_append_nl2,
      splitLines_no_nl_eq bm10 (by decide),
      splitLines_joinLines L hne hnl,
      show splitLines bt3 = [bt3] from by decide]
    simp
  have hkeep : ∀ k, k < (bm10 :: (L ++ [bt3])).length →
      keepLine (bm10 :: (L ++ [bt3])) (0 + k) ((bm10 :: (L ++ [bt3])).getD k []) = true := by
    intro k hk
    simp only [List.length_cons, List.length_append, List.length_singleton,
      List.length_nil] at hk
    cases k with
    | zero =>
      show keepLine _ 0 bm10 = true
      exact keepLine_of_not_bare (by decide)
    | succ j =>
      have hgd : (bm10 :: (L ++ [bt3])).getD (j + 1) [] = (L ++ [bt3]).getD j [] := rfl
      rcases Nat.lt_or_ge j L.length with hj | hj
      · rw [show (0 + (j + 1)) = j + 1 from by omega, hgd,
          List.getD_append L [bt3] [] j hj]
        have hmem : L.getD j [] ∈ L := by
          rw [List.getD_eq_getElem L [] hj]
          exact List.getElem_mem hj
        exact keepLine_of_not_bare (keepInner_not_bare (hmk2 _ hmem))
      · have hjL : j = L.length := by omega
        rw [show (0 + (j + 1)) = j + 1 from by omega, hgd,
          List.getD_append_right L [bt3] [] j hj,
          show j - L.length = 0 from by omega]
        show keepLine (bm10 :: (L ++ [bt3])) (j + 1) bt3 = true
        have hfence : prevFence (bm10 :: (L ++ [bt3])) (j + 1) = true := by
          unfold prevFence
          rw [List.any_eq_true]
          refine ⟨0, ?_, show bt3.isPrefixOf (trim bm10) = true from by decide⟩
          rw [List.mem_range'_1]
          omega
        unfold keepLine
        rw [hfence]
        simp
  have hjoin : joinLines (bm10 :: (L ++ [bt3])) = openerStr ++ (joinLines L ++ closer4) := by
    rw [joinLines_cons (by simp), joinLines_append_single bt3 L hne]
    rw [show openerStr = bm10 ++ ['\n'] from by decide, closer4_eq]
    simp
  show joinLines (cleanupLines (splitLines (subA _))) = _
  rw [hsub, hsl]
  unfold cleanupLines
  rw [cleanupAux_keep_all_idx _ 0 hkeep, hjoin, houtassoc]

/-- `src/mermaid.py` on a three-closer block: substitution collapses the
closers and, for bodies of at most eight lines, the orphan scan keeps
everything. -/
theorem cleanA_block3 (L : List (List Char)) (hne : L ≠ [])
    (hnl : ∀ l ∈ L, '\n' ∉ l)
    (hmk1 : ∀ l ∈ L, ¬ bt3.isPrefixOf l = true)
    (hmk2 : ∀ l ∈ L, keepInnerLine l = true)
    (htrim : trim (joinLines L) = joinLines L)
    (hlen : L.length ≤ 8) :
    cleanA (openerStr ++ joinLines L ++ closer4 ++ closer4 ++ closer4)
      = openerStr ++ joinLines L ++ closer4 := by
  have hassoc : openerStr ++ joinLines L ++ closer4 ++ closer4 ++ closer4
      = openerStr ++ (joinLines L ++ (closer4 ++ (closer4 ++ closer4))) := by
    simp [List.append_assoc]
  have hsub : subA (openerStr ++ joinLines L ++ closer4 ++ closer4 ++ closer4)
      = openerStr ++ (joinLines L ++ closer4) := by
    unfold subA scanA
    rw [hassoc]
    rw [block3_eval eatA (by decide) L hnl hmk1 _]
    exact fixBlock_eval L hne hnl hmk2 htrim
  exact cleanA_of_sub L _ hsub hne hnl hmk2 hlen

/-- A well-formed single-closer block with at most eight body lines is a
fixed point of `src/mermaid.py`'s normalization. -/
theorem cleanA_block1 (L : List (List Char)) (hne : L ≠ [])
    (hnl : ∀ l ∈ L, '\n' ∉ l)
    (hmk1 : ∀ l ∈ L, ¬ bt3.isPrefixOf l = true)
    (hmk2 : ∀ l ∈ L, keepInnerLine l = true)
    (htrim : trim (joinLines L) = joinLines L)
    (hlen : L.length ≤ 8) :
    cleanA (openerStr ++ joinLines L ++ closer4)
      = openerStr ++ joinLines L ++ closer4 := by
  have hassoc : openerStr ++ joinLines L ++ closer4
      = openerStr ++ (joinLines L ++ closer4) := by
    simp [List.append_assoc]
  have hsub : subA (openerStr ++ joinLines L ++ closer4)
      = openerStr ++ (joinLines L ++ closer4) := by
    unfold subA scanA
    rw [hassoc]
    rw [block1_eval eatA (by decide) L hnl hmk1 _]
    exact fixBlock_eval L hne hnl hmk2 htrim
  exact cleanA_of_sub L _ hsub hne hnl hmk2 hlen

/-- Claim C4, amended: a block opened once and closed by three consecutive
bare marker lines, whose inner lines are newline-free, not marker-led, not
stray fence lines, and whose body is strip-stable, normalizes under
`src/modules/mermaid.py` to the opener, the unchanged inner lines, and a
single closer; under `src/mermaid.py` the same holds provided the block
has at most eight inner lines (otherwise the orphan scan deletes the
closer). Edge blank lines are excluded by strip-stability — they are
stripped, not preserved (`claim_C4_counterexample`). -/
theorem claim_C4_amended (L : List (List Char)) (hne : L ≠ [])
    (hnl : ∀ l ∈ L, '\n' ∉ l)
    (hmk1 : ∀ l ∈ L, ¬ bt3.isPrefixOf l = true)
    (hmk2 : ∀ l ∈ L, keepInnerLine l = true)
    (htrim : trim (joinLines L) = joinLines L) :
    cleanB (openerStr ++ joinLines L ++ closer4 ++ closer4 ++ closer4)
        = openerStr ++ joinLines L ++ closer4 ∧
      (L.length ≤ 8 →
        cleanA (openerStr ++ joinLines L ++ closer4 ++ closer4 ++ closer4)
          = openerStr ++ joinLines L ++ closer4) :=
  ⟨cleanB_block3 L hne hnl hmk1 hmk2 htrim,
    fun hlen => cleanA_block3 L hne hnl hmk1 hmk2 htrim hlen⟩

/-- Witness for `claim_C4_amended` on a concrete two-line flowchart body. -/
theorem claim_C4_amended_witness :
    ([("flowchart LR").data, ("  A --> B").data] ≠ ([] : List (List Char)) ∧
      (∀ l ∈ [("flowchart LR").data, ("  A --> B").data], '\n' ∉ l) ∧
      (∀ l ∈ [("flowchart LR").data, ("  A --> B").data], ¬ bt3.isPrefixOf l = true) ∧
      (∀ l ∈ [("flowchart LR").data, ("  A --> B").data], keepInnerLine l = true) ∧
      trim (joinLines [("flowchart LR").data, ("  A --> B").data])
        = joinLines [("flowchart LR").data, ("  A --> B").data] ∧
      [("flowchart LR").data, ("  A --> B").data].length ≤ 8) ∧
      cleanB (openerStr ++ joinLines [("flowchart LR").data, ("  A --> B").data]
          ++ closer4 ++ closer4 ++ closer4)
        = openerStr ++ joinLines [("flowchart LR").data, ("  A --> B").data] ++ closer4 ∧
      cleanA (openerStr ++ joinLines [("flowchart LR").data, ("  A --> B").data]
          ++ closer4 ++ closer4 ++ closer4)
        = openerStr ++ joinLines [("flowchart LR").data, ("  A --> B").data] ++ closer4 :=
  ⟨by decide,
    (claim_C4_amended [("flowchart LR").data, ("  A --> B").data]
      (by decide) (by decide) (by decide) (by decide) (by decide)).1,
    (claim_C4_amended [("flowchart LR").data, ("  A --> B").data]
      (by decide) (by decide) (by decide) (by decide) (by decide)).2 (by decide)⟩

/-- Claim C1, amended. Normalization is not idempotent in general
(`claim_C1_counterexample`), but it is on two natural classes of inputs,
for both implementations. First, on documents in which the fence marker
does not occur at all, both normalizations are the identity, hence
idempotent. Second, on a well-formed block — a strip-stable, marker-free
body of at most eight lines between one opener and one closer — both
normalizations are the identity; consequently normalizing the
duplicated-closer document of claim C4 once more changes nothing, i.e.
the first pass already reaches a fixed point there. -/
theorem claim_C1_amended (d : List Char) (L : List (List Char))
    (hfree : findIdx? bt3 d = none)
    (hne : L ≠ []) (hnl : ∀ l ∈ L, '\n' ∉ l)
    (hmk1 : ∀ l ∈ L, ¬ bt3.isPrefixOf l = true)
    (hmk2 : ∀ l ∈ L, keepInnerLine l = true)
    (htrim : trim (joinLines L) = joinLines L)
    (hlen : L.length ≤ 8) :
    (cleanA d = d ∧ cleanB d = d ∧
      cleanA (cleanA d) = cleanA d ∧ cleanB (cleanB d) = cleanB d) ∧
    cleanB (openerStr ++ joinLines L ++ closer4)
        = openerStr ++ joinLines L ++ closer4 ∧
    cleanA (openerStr ++ joinLines L ++ closer4)
        = openerStr ++ joinLines L ++ closer4 ∧
    cleanB (cleanB (openerStr ++ joinLines L ++ closer4 ++ closer4 ++ closer4))
        = cleanB (openerStr ++ joinLines L ++ closer4 ++ closer4 ++ closer4) ∧
    cleanA (cleanA (openerStr ++ joinLines L ++ closer4 ++ closer4 ++ closer4))
        = cleanA (openerStr ++ joinLines L ++ closer4 ++ closer4 ++ closer4) := by
  obtain ⟨hA, hB⟩ := clean_id_of_no_bt3 d hfree
  refine ⟨⟨hA, hB, by rw [hA, hA], by rw [hB, hB]⟩, ?_, ?_, ?_, ?_⟩
  · exact cleanB_block1 L hne hnl hmk1 hmk2 htrim
  · exact cleanA_block1 L hne hnl hmk1 hmk2 htrim hlen
  · rw [cleanB_block3 L hne hnl hmk1 hmk2 htrim,
      cleanB_block1 L hne hnl hmk1 hmk2 htrim]
  · rw [cleanA_block3 L hne hnl hmk1 hmk2 htrim hlen,
      cleanA_block1 L hne hnl hmk1 hmk2 htrim hlen]

/-- Witness for `claim_C1_amended`: a marker-free document and a concrete
two-line flowchart body. -/
theorem claim_C1_amended_witness :
    (findIdx? bt3 (("a\nplain text\nno fences").data) = none ∧
      [("flowchart LR").data, ("  A --> B").data] ≠ ([] : List (List Char)) ∧
      (∀ l ∈ [("flowchart LR").data, ("  A --> B").data], '\n' ∉ l) ∧
      (∀ l ∈ [("flowchart LR").data, ("  A --> B").data], ¬ bt3.isPrefixOf l = true) ∧
      (∀ l ∈ [("flowchart LR").data, ("  A --> B").data], keepInnerLine l = true) ∧
      trim (joinLines [("flowchart LR").data, ("  A --> B").data])
        = joinLines [("flowchart LR").data, ("  A --> B").data] ∧
      [("flowchart LR").data, ("  A --> B").data].length ≤ 8) ∧
      cleanA (cleanA (("a\nplain text\nno fences").data))
        = cleanA (("a\nplain text\nno fences").data) ∧
      cleanA (openerStr ++ joinLines [("flowchart LR").data, ("  A --> B").data] ++ closer4)
        = openerStr ++ joinLines [("flowchart LR").data, ("  A --> B").data] ++ closer4 :=
  ⟨by decide,
    ((claim_C1_amended (("a\nplain text\nno fences").data)
        [("flowchart LR").data, ("  A --> B").data]
        (by decide) (by decide) (by decide) (by decide) (by decide)
        (by decide) (by decide)).1).2.2.1,
    ((claim_C1_amended (("a\nplain text\nno fences").data)
        [("flowchart LR").data, ("  A --> B").data]
        (by decide) (by decide) (by decide) (by decide) (by decide)
        (by decide) (by decide)).2).2.1⟩

/-!
## Claim C5 — non-interference of normalization

A line of the input lies wholly outside every recognized block span when
all of its characters, and both of its line boundaries, fall inside the
verbatim-copied segments of the `re.sub` decomposition. `outs` collects
exactly those lines: interior lines of each copied segment, including the
first line of the leading segment and the last line of the trailing one;
the seam fragments merged with a match are excluded, since their line
contains consumed characters.
-/

theorem getLastD_default_irrel {l : List (List Char)} (h : l ≠ [])
    (d d' : List Char) : l.getLastD d = l.getLastD d' := by
  rw [List.getLastD_eq_getLast? d l, List.getLastD_eq_getLast? d' l]
  cases hl : l.getLast? with
  | none => exact absurd (List.getLast?_eq_none_iff.mp hl) h
  | some x => rfl

/-- Appending a newline-free fragment extends the last line. -/
theorem splitLines_append_last (a p : List Char) (hp : '\n' ∉ p) :
    splitLines (a ++ p) =
      (splitLines a).dropLast ++ [(splitLines a).getLastD [] ++ p] := by
  induction a with
  | nil =>
    rw [List.nil_append, splitLines_no_nl_eq p hp]
    rfl
  | cons c cs ih =>
    by_cases hc : c = '\n'
    · subst hc
      rw [List.cons_append, splitLines_nl, splitLines_nl, ih]
      rw [List.dropLast_cons_of_ne_nil (splitLines_ne_nil cs)]
      rw [List.getLastD_cons, getLastD_default_irrel (splitLines_ne_nil cs) [] []]
      rfl
    · rw [List.cons_append, splitLines_cons hc, splitLines_cons hc, ih]
      cases hs : splitLines cs with
      | nil => exact absurd hs (splitLines_ne_nil cs)
      | cons x xs =>
        cases xs with
        | nil => simp
        | cons y ys =>
          simp only [List.dropLast_cons₂, List.headD_cons, List.tail_cons,
            List.cons_append, List.getLastD_cons]

/-- The input lines lying wholly outside every match: interior lines of
copied segments; `first` records whether the current segment starts at the
document start (so its first line has a genuine left boundary). -/
def outs : Bool → List Seg → List (List Char)
  | _, [] => []
  | first, .copy t :: rest =>
    let ls1 := if first then splitLines t else (splitLines t).tail
    match rest with
    | [] => ls1
    | _ :: _ => ls1.dropLast ++ outs false rest
  | _, .blk _ _ :: rest => outs false rest

/-- The lines of a document lying wholly outside every recognized block
span of a scan decomposition. -/
def outsideLines (segs : List Seg) : List (List Char) := outs true segs

theorem outs_copy_single (first : Bool) (t : List Char) :
    outs first [.copy t] = if first then splitLines t else (splitLines t).tail := rfl

theorem outs_copy_cons (first : Bool) (t : List Char) (sg : Seg) (rest : List Seg) :
    outs first (.copy t :: sg :: rest)
      = (if first then splitLines t else (splitLines t).tail).dropLast
          ++ outs false (sg :: rest) := rfl

theorem outs_blk (first : Bool) (m g : List Char) (rest : List Seg) :
    outs first (.blk m g :: rest) = outs false rest := rfl

/-- `scan` never returns an empty decomposition. -/
theorem scan_ne_nil (eat : List Char → Nat) (fuel : Nat) (s : List Char) :
    scan eat fuel s ≠ [] := by
  cases fuel with
  | zero => simp [scan]
  | succ f =>
    cases h1 : findIdx? openerStr s with
    | none => simp [scan, h1]
    | some q =>
      cases h2 : findIdx? closer4 (s.drop (q + 11)) with
      | none => simp [scan, h1, h2]
      | some r => simp [scan, h1, h2]

/-- Outside lines survive both in the full line list of the substitution
output (when starting at the document start) and in its tail (when the
copied prefix is itself preceded by a match). -/
theorem outs_sublist (eat : List Char → Nat) :
    ∀ (fuel : Nat) (s : List Char),
      (outs true (scan eat fuel s)).Sublist (splitLines (render (scan eat fuel s))) ∧
      (outs false (scan eat fuel s)).Sublist
        ((splitLines (render (scan eat fuel s))).tail) := by
  intro fuel
  induction fuel with
  | zero =>
    intro s
    constructor
    · rw [show scan eat 0 s = [.copy s] from rfl, outs_copy_single, render_copy]
      simp
    · rw [show scan eat 0 s = [.copy s] from rfl, outs_copy_single, render_copy]
      simp
  | succ fuel ih =>
    intro s
    cases h1 : findIdx? openerStr s with
    | none =>
      have hs : scan eat (fuel + 1) s = [.copy s] := by simp [scan, h1]
      rw [hs, outs_copy_single, outs_copy_single, render_copy]
      exact ⟨by simp, by simp⟩
    | some q =>
      cases h2 : findIdx? closer4 (s.drop (q + 11)) with
      | none =>
        have hs : scan eat (fuel + 1) s = [.copy s] := by simp [scan, h1, h2]
        rw [hs, outs_copy_single, outs_copy_single, render_copy]
        exact ⟨by simp, by simp⟩
      | some r =>
        have hs : scan eat (fuel + 1) s =
            .copy (s.take q) ::
              .blk ((s.take (q + 11 + r + 4 + eat ((s.drop (q + 11)).drop (r + 4)))).drop q)
                ((s.drop (q + 11)).take r) ::
              scan eat fuel (((s.drop (q + 11)).drop (r + 4)).drop
                (eat ((s.drop (q + 11)).drop (r + 4)))) := by
          simp [scan, h1, h2]
        set pre := s.take q with hpre
        set g := (s.drop (q + 11)).take r with hg
        set m := (s.take (q + 11 + r + 4 + eat ((s.drop (q + 11)).drop (r + 4)))).drop q
          with hm
        set rem := ((s.drop (q + 11)).drop (r + 4)).drop
          (eat ((s.drop (q + 11)).drop (r + 4))) with hrem
        set segs2 := scan eat fuel rem with hsegs2
        set R := render segs2 with hR
        set J := joinLines ((splitLines (trim g)).filter keepInnerLine) with hJ
        have hrender : render (scan eat (fuel + 1) s) = pre ++ (fixBlock g ++ R) := by
          rw [hs, hR]
          simp [render, Seg.out]
        have hWeq : pre ++ (fixBlock g ++ R)
            = (pre ++ bm10) ++ '\n' :: (J ++ '\n' :: (bt3 ++ R)) := by
          unfold fixBlock
          rw [← hJ]
          simp [List.append_assoc]
        have hSL : splitLines (render (scan eat (fuel + 1) s))
            = ((splitLines pre).dropLast ++ [(splitLines pre).getLastD [] ++ bm10])
              ++ (splitLines J ++
                ((bt3 ++ (splitLines R).headD []) :: (splitLines R).tail)) := by
          rw [hrender, hWeq, splitLines_append_nl2, splitLines_append_nl2,
            splitLines_append_no_nl bt3 R (by decide),
            splitLines_append_last pre bm10 (by decide)]
        have hchain : (outs false segs2).Sublist
            (splitLines J ++ ((bt3 ++ (splitLines R).headD []) :: (splitLines R).tail)) := by
          refine ((ih rem).2.trans ?_)
          refine List.Sublist.trans ?_ (List.sublist_append_right (splitLines J) _)
          exact List.Sublist.cons _ (List.Sublist.refl _)
        have houts : outs true (scan eat (fuel + 1) s)
            = (splitLines pre).dropLast ++ outs false segs2 := by
          rw [hs, outs_copy_cons, outs_blk]
          simp
        have houtsf : outs false (scan eat (fuel + 1) s)
            = ((splitLines pre).tail).dropLast ++ outs false segs2 := by
          rw [hs, outs_copy_cons, outs_blk]
          simp
        constructor
        · rw [houts, hSL, List.append_assoc]
          refine List.Sublist.append_left ?_ _
          refine hchain.trans ?_
          rw [List.singleton_append]
          exact List.Sublist.cons _ (List.Sublist.refl _)
        · rw [houtsf, hSL]
          cases hsp : splitLines pre with
          | nil => exact absurd hsp (splitLines_ne_nil pre)
          | cons x xs =>
            cases xs with
            | nil =>
              simp only [List.tail_cons, List.dropLast_single, List.dropLast_nil,
                List.nil_append]
              exact hchain
            | cons y ys =>
              simp only [List.tail_cons, List.dropLast_cons₂, List.cons_append,
                List.append_assoc]
              refine List.Sublist.append_left ?_ _
              refine hchain.trans ?_
              rw [List.nil_append]
              exact List.Sublist.cons _ (List.Sublist.refl _)

/-- Non-bare lines survive the orphan scan. -/
theorem filter_not_bare_sublist_cleanup (all : List (List Char)) :
    ∀ (ls : List (List Char)) (i : Nat),
      (ls.filter (fun l => !(decide (trim l = bt3)))).Sublist (cleanupAux all i ls) := by
  intro ls
  induction ls with
  | nil => intro i; simp [cleanupAux]
  | cons l ls ih =>
    intro i
    simp only [cleanupAux, List.filter_cons]
    by_cases hb : trim l = bt3
    · rw [if_neg (by simp [hb])]
      by_cases hk : keepLine all i l = true
      · rw [if_pos hk]
        exact List.Sublist.cons l (ih (i + 1))
      · rw [if_neg hk]
        exact ih (i + 1)
    · rw [if_pos (by simp [hb]), if_pos (keepLine_of_not_bare hb)]
      exact List.Sublist.cons₂ l (ih (i + 1))

/-- A line deleted by the orphan loop strips to the bare marker: `keepLine`
fails only on bare-marker lines. -/
theorem bare_of_not_keepLine {all : List (List Char)} {i : Nat} {l : List Char}
    (h : keepLine all i l = false) : trim l = bt3 := by
  unfold keepLine at h
  by_cases hb : trim l = bt3
  · exact hb
  · simp [hb] at h

/-- The orphan loop is an indexed filter: it keeps exactly the lines whose
(index, line) pair satisfies `keepLine`, byte-identical and in order. -/
theorem cleanupAux_eq_filter (all : List (List Char)) :
    ∀ (ls : List (List Char)) (i : Nat),
      cleanupAux all i ls
        = ((List.enumFrom i ls).filter (fun p => keepLine all p.1 p.2)).map Prod.snd := by
  intro ls
  induction ls with
  | nil => intro i; rfl
  | cons l ls ih =>
    intro i
    rw [show List.enumFrom i (l :: ls) = (i, l) :: List.enumFrom (i + 1) ls from rfl]
    by_cases hk : keepLine all i l = true
    · rw [cleanupAux, if_pos hk]
      simp only [List.filter_cons]
      rw [if_pos (by simpa using hk)]
      simp [ih (i + 1)]
    · rw [cleanupAux, if_neg hk]
      simp only [List.filter_cons]
      rw [if_neg (by simpa using hk)]
      exact ih (i + 1)

/-- Any sublist embeds into the enumerated list with its actual indices. -/
theorem sublist_enumFrom {t l : List (List Char)} (h : t.Sublist l) :
    ∀ i, ∃ ps : List (Nat × List Char),
      ps.Sublist (List.enumFrom i l) ∧ ps.map Prod.snd = t := by
  induction h with
  | slnil => intro i; exact ⟨[], by simp, rfl⟩
  | cons a h ih =>
    intro i
    obtain ⟨ps, hps, hmap⟩ := ih (i + 1)
    exact ⟨ps, hps.trans (List.Sublist.cons _ (List.Sublist.refl _)), hmap⟩
  | cons₂ a h ih =>
    intro i
    obtain ⟨ps, hps, hmap⟩ := ih (i + 1)
    exact ⟨(i, a) :: ps, List.Sublist.cons₂ _ hps, by simp [hmap]⟩

/-- Claim C5: every line lying wholly outside every recognized block span
appears byte-identical and in order in the substitution output of either
implementation (for `src/modules/mermaid.py` that is the final output).
For `src/mermaid.py`, whose orphan scan may further delete lines: the
outside lines occupy actual positions (exhibited by `ps`) in the
substitution output's line list; a line can be deleted at its position
only if it strips to the bare marker; and every outside line the scan does
not delete at its position — bare-marker lines whose look-back finds a
fence included — appears byte-identical and in order in the final output.
In particular every outside line that does not strip to the bare marker
survives unconditionally. -/
theorem claim_C5 (s : List Char) :
    (outsideLines (scanB s)).Sublist (splitLines (subB s)) ∧
      (outsideLines (scanA s)).Sublist (splitLines (subA s)) ∧
      ((outsideLines (scanA s)).filter
          (fun l => !(decide (trim l = bt3)))).Sublist (splitLines (cleanA s)) ∧
      ∃ ps : List (Nat × List Char),
        ps.Sublist (List.enumFrom 0 (splitLines (subA s))) ∧
        ps.map Prod.snd = outsideLines (scanA s) ∧
        (∀ p ∈ ps, keepLine (splitLines (subA s)) p.1 p.2 = false → trim p.2 = bt3) ∧
        ((ps.filter (fun p => keepLine (splitLines (subA s)) p.1 p.2)).map
            Prod.snd).Sublist (splitLines (cleanA s)) := by
  have h2 : (outsideLines (scanA s)).Sublist (splitLines (subA s)) :=
    (outs_sublist eatA (s.length + 1) s).1
  obtain ⟨ps, hps, hmap⟩ := sublist_enumFrom h2 0
  have hclchar : cleanupLines (splitLines (subA s))
      = ((List.enumFrom 0 (splitLines (subA s))).filter
          (fun p => keepLine (splitLines (subA s)) p.1 p.2)).map Prod.snd :=
    cleanupAux_eq_filter _ _ 0
  have h3 : ((outsideLines (scanA s)).filter
      (fun l => !(decide (trim l = bt3)))).Sublist
        (cleanupLines (splitLines (subA s))) := by
    refine (List.Sublist.filter _ h2).trans ?_
    exact filter_not_bare_sublist_cleanup _ _ 0
  have h4 : ((ps.filter (fun p => keepLine (splitLines (subA s)) p.1 p.2)).map
      Prod.snd).Sublist (cleanupLines (splitLines (subA s))) := by
    rw [hclchar]
    exact List.Sublist.map _ (List.Sublist.filter _ hps)
  by_cases hcl : cleanupLines (splitLines (subA s)) = []
  · rw [hcl] at h3 h4
    refine ⟨(outs_sublist eatB (s.length + 1) s).1, h2, ?_, ps, hps, hmap,
      fun p _ h => bare_of_not_keepLine h, ?_⟩
    · rw [List.sublist_nil.mp h3]
      simp
    · rw [List.sublist_nil.mp h4]
      simp
  · have hsl : splitLines (cleanA s) = cleanupLines (splitLines (subA s)) :=
      cleanA_splitLines s hcl
    rw [hsl]
    exact ⟨(outs_sublist eatB (s.length + 1) s).1, h2, h3,
      ps, hps, hmap, fun p _ h => bare_of_not_keepLine h, h4⟩

end Deck

